import Mathlib

/-! # Smart-meter display firmware: a shallow embedding

The two programs of the repository drive an SPI TFT panel through GPIO and SPI
primitives of the board-support layer.  Every function of the firmware that
talks to the hardware is embedded as a function returning the list of bus
events it produces, in program order.  A blocking wait on the busy flag is
assumed to return (the firmware has no other behaviour to observe there).

Machine integers are `Nat` (unsigned) and `Int` (signed or promoted to `int`).
A function whose C parameter is `uint16_t`, `uint8_t` or `int16_t` receives the
value of the argument expression as an `Int` and converts it to the parameter
type on entry, which is what a C call does.
-/

namespace SmartMeter

/-! ## Machine integers -/

/-- Conversion of an integer value to `uint16_t`. -/
def toU16 (v : Int) : Nat := (v % 65536).toNat

/-- Conversion of an integer value to `uint8_t`. -/
def toU8 (v : Int) : Nat := (v % 256).toNat

/-- Conversion of an integer value to `int16_t` (two's complement wrap). -/
def toI16 (v : Int) : Int := (v + 32768) % 65536 - 32768

/-- Conversion of an integer value to 32-bit `int` (two's complement wrap). -/
def toI32 (v : Int) : Int := (v + 2147483648) % 4294967296 - 2147483648

/-- Conversion of an integer value to `uint32_t`. -/
def toU32 (v : Int) : Nat := (v % 4294967296).toNat

/-! ## Bus events -/

/-- What the firmware does to the pins and the SPI bus. -/
inductive Event where
  /-- The data/command line is driven high (`DC_HIGH`) or low (`DC_LOW`). -/
  | dc (high : Bool)
  /-- The reset line is driven high (`RST_HIGH`) or low (`RST_LOW`). -/
  | rst (high : Bool)
  /-- One byte is put on the SPI bus and the bus is waited for. -/
  | tx (byte : Nat)
  /-- A busy wait of the given number of milliseconds. -/
  | delay (ms : Nat)
  deriving DecidableEq, Repr

/-- Body of `spi_tx(uint8_t b)`: one byte on the bus.  Every argument in the
firmware is a non-negative expression; it is reduced to 8 bits. -/
def spi_tx (b : Nat) : List Event := [Event.tx (b % 256)]

/-- Body of `delay_ms(uint32_t ms)`. -/
def delay_ms (ms : Nat) : List Event := [Event.delay ms]

/-- The pixel stream of a fill loop: `n` times the two bytes of `color`,
high byte first (`spi_tx(color >> 8); spi_tx(color & 0xFF);`). -/
def stream_color (color : Nat) : Nat → List Event
  | 0 => []
  | n + 1 => spi_tx (color >>> 8) ++ spi_tx (color &&& 0xFF) ++ stream_color color n

/-! ## Dashboard program (`main_project/empty.c`, ILI9341, 240x320) -/

namespace Dashboard

/-- Body of `lcd_cmd(uint8_t c)`. -/
def lcd_cmd (c : Nat) : List Event := Event.dc false :: spi_tx c

/-- Body of `lcd_data(uint8_t d)`. -/
def lcd_data (d : Nat) : List Event := Event.dc true :: spi_tx d

/-- Body of `lcd_reset`. -/
def lcd_reset : List Event :=
  [Event.rst false] ++ delay_ms 20 ++ [Event.rst true] ++ delay_ms 150

/-- Body of `ili9341_init`. -/
def ili9341_init : List Event :=
  lcd_reset ++ lcd_cmd 0x11 ++ delay_ms 120 ++ lcd_cmd 0x3A ++ lcd_data 0x55 ++
    lcd_cmd 0x36 ++ lcd_data 0xC8 ++ lcd_cmd 0x29 ++ delay_ms 20

/-- Body of `lcd_set_window(uint16_t x0, uint16_t y0, uint16_t x1, uint16_t y1)`. -/
def lcd_set_window (x0 y0 x1 y1 : Int) : List Event :=
  let x0 := toU16 x0
  let y0 := toU16 y0
  let x1 := toU16 x1
  let y1 := toU16 y1
  lcd_cmd 0x2A ++
    lcd_data (x0 >>> 8) ++ lcd_data (x0 &&& 0xFF) ++
    lcd_data (x1 >>> 8) ++ lcd_data (x1 &&& 0xFF) ++
  lcd_cmd 0x2B ++
    lcd_data (y0 >>> 8) ++ lcd_data (y0 &&& 0xFF) ++
    lcd_data (y1 >>> 8) ++ lcd_data (y1 &&& 0xFF) ++
  lcd_cmd 0x2C

/-- Body of `lcd_draw_pixel(uint16_t x, uint16_t y, uint16_t color)`. -/
def lcd_draw_pixel (x y color : Int) : List Event :=
  let x := toU16 x
  let y := toU16 y
  let color := toU16 color
  if x ≥ 240 ∨ y ≥ 320 then []
  else
    lcd_set_window x y x y ++ [Event.dc true] ++
      spi_tx (color >>> 8) ++ spi_tx (color &&& 0xFF)

/-- Body of `lcd_fill(uint16_t color)`. -/
def lcd_fill (color : Int) : List Event :=
  let color := toU16 color
  lcd_set_window 0 0 239 319 ++ [Event.dc true] ++ stream_color color 76800

/-- Body of `lcd_fill_rect(uint16_t x, uint16_t y, uint16_t w, uint16_t h, uint16_t color)`.
The loop bound `(uint32_t)w * h` is computed in 32 bits. -/
def lcd_fill_rect (x y w h color : Int) : List Event :=
  let x := toU16 x
  let y := toU16 y
  let w := toU16 w
  let h := toU16 h
  let color := toU16 color
  lcd_set_window x y (x + w - 1) (y + h - 1) ++ [Event.dc true] ++
    stream_color color ((w * h) % 4294967296)

/-- The table `font5x7`: 33 glyphs of 5 column bytes each. -/
def font5x7 : List (List Nat) := [
  [0x00, 0x00, 0x00, 0x00, 0x00], -- 0: space
  [0x3E, 0x51, 0x49, 0x45, 0x3E], -- 1: 0
  [0x00, 0x42, 0x7F, 0x40, 0x00], -- 2: 1
  [0x42, 0x61, 0x51, 0x49, 0x46], -- 3: 2
  [0x21, 0x41, 0x45, 0x4B, 0x31], -- 4: 3
  [0x18, 0x14, 0x12, 0x7F, 0x10], -- 5: 4
  [0x27, 0x45, 0x45, 0x45, 0x39], -- 6: 5
  [0x3C, 0x4A, 0x49, 0x49, 0x30], -- 7: 6
  [0x01, 0x71, 0x09, 0x05, 0x03], -- 8: 7
  [0x36, 0x49, 0x49, 0x49, 0x36], -- 9: 8
  [0x06, 0x49, 0x49, 0x29, 0x1E], -- 10: 9
  [0x00, 0x36, 0x36, 0x00, 0x00], -- 11: :
  [0x7C, 0x12, 0x11, 0x12, 0x7C], -- 12: A
  [0x7F, 0x49, 0x49, 0x49, 0x36], -- 13: C
  [0x7F, 0x41, 0x41, 0x22, 0x1C], -- 14: D
  [0x7F, 0x49, 0x49, 0x49, 0x41], -- 15: E
  [0x7F, 0x09, 0x09, 0x09, 0x01], -- 16: F
  [0x3E, 0x41, 0x49, 0x49, 0x7A], -- 17: G
  [0x7F, 0x08, 0x08, 0x08, 0x7F], -- 18: H
  [0x00, 0x41, 0x7F, 0x41, 0x00], -- 19: I
  [0x7F, 0x40, 0x40, 0x40, 0x40], -- 20: L
  [0x7F, 0x02, 0x0C, 0x02, 0x7F], -- 21: M
  [0x7F, 0x04, 0x08, 0x10, 0x7F], -- 22: N
  [0x3E, 0x41, 0x41, 0x41, 0x3E], -- 23: O
  [0x7F, 0x09, 0x09, 0x09, 0x06], -- 24: P
  [0x7F, 0x09, 0x19, 0x29, 0x46], -- 25: R
  [0x46, 0x49, 0x49, 0x49, 0x31], -- 26: S
  [0x01, 0x01, 0x7F, 0x01, 0x01], -- 27: T
  [0x3F, 0x40, 0x40, 0x40, 0x3F], -- 28: V
  [0x03, 0x04, 0x78, 0x04, 0x03], -- 29: Y
  [0x00, 0x41, 0x36, 0x08, 0x00], -- 30: /
  [0x00, 0x00, 0x7F, 0x00, 0x00], -- 31: l (lowercase L)
  [0x63, 0x14, 0x08, 0x14, 0x63]  -- 32: x (lowercase x)
]

/-- The chain of comparisons at the head of `lcd_draw_char` that selects `idx`;
`none` is the final `else return;`.  Characters are their codes. -/
def glyph_index (c : Nat) : Option Nat :=
  if c = (' ').toNat then some 0
  else if c ≥ ('0').toNat ∧ c ≤ ('9').toNat then some ((1 + (c - ('0').toNat)) % 256)
  else if c = (':').toNat then some 11
  else if c = ('A').toNat then some 12
  else if c = ('C').toNat then some 13
  else if c = ('D').toNat then some 14
  else if c = ('E').toNat then some 15
  else if c = ('F').toNat then some 16
  else if c = ('G').toNat then some 17
  else if c = ('H').toNat then some 18
  else if c = ('I').toNat then some 19
  else if c = ('L').toNat then some 20
  else if c = ('M').toNat then some 21
  else if c = ('N').toNat then some 22
  else if c = ('O').toNat then some 23
  else if c = ('P').toNat then some 24
  else if c = ('R').toNat then some 25
  else if c = ('S').toNat then some 26
  else if c = ('T').toNat then some 27
  else if c = ('V').toNat then some 28
  else if c = ('Y').toNat then some 29
  else if c = ('/').toNat then some 30
  else if c = ('l').toNat then some 31
  else if c = ('x').toNat then some 32
  else none

/-- The loop `for (uint8_t j = ...; j < 8; j++)` of `lcd_draw_char` for glyph
column `i`, with `n` iterations left, at row `j`, `line` being the column byte
shifted right `j` times.  `x`, `y`, `color`, `size` are the converted
parameters of `lcd_draw_char`. -/
def draw_char_rows (x y color size i : Nat) : Nat → Nat → Nat → List Event
  | 0, _, _ => []
  | n + 1, j, line =>
    (if line &&& 0x01 ≠ 0 then
      (List.range size).flatMap fun sx =>
        (List.range size).flatMap fun sy =>
          lcd_draw_pixel (x + i * size + sx) (y + j * size + sy) color
    else []) ++
    draw_char_rows x y color size i n (j + 1) ((line >>> 1) % 256)

/-- Body of `lcd_draw_char(uint16_t x, uint16_t y, char c, uint16_t color, uint8_t size)`. -/
def lcd_draw_char (x y c color size : Int) : List Event :=
  let x := toU16 x
  let y := toU16 y
  let c := toU8 c
  let color := toU16 color
  let size := toU8 size
  match glyph_index c with
  | none => []
  | some idx =>
    (List.range 5).flatMap fun i =>
      draw_char_rows x y color size i 8 0 ((font5x7.getD idx []).getD i 0)

/-- The loop `while (*str)` of `lcd_draw_string`, at the current `offset`.
`str` is the memory from the pointer on, one character code per cell; a cell
holding 0 ends the string. -/
def draw_string_loop (x y color size : Nat) : Nat → List Nat → List Event
  | _, [] => []
  | offset, c :: rest =>
    if c = 0 then []
    else
      lcd_draw_char (x + offset) y c color size ++
        draw_string_loop x y color size (toU16 (offset + 6 * size)) rest

/-- Body of `lcd_draw_string(uint16_t x, uint16_t y, const char* str, uint16_t color, uint8_t size)`. -/
def lcd_draw_string (x y : Int) (str : List Nat) (color size : Int) : List Event :=
  draw_string_loop (toU16 x) (toU16 y) (toU16 color) (toU8 size) 0 str

/-! ### Number formatting -/

/-- The loop `while (num > 0) { str[i++] = (num % 10) + '0'; num /= 10; }`
of `int_to_string`; returns the final `i` and the buffer. -/
def int_to_string_digits (num i : Nat) (str : List Nat) : Nat × List Nat :=
  if h : num > 0 then
    int_to_string_digits (num / 10) (i + 1) (str.set i ((num % 10 + ('0').toNat) % 256))
  else (i, str)
termination_by num
decreasing_by exact Nat.div_lt_self h (by decide)

/-- The loop `while (start < end) { swap str[start], str[end]; start++; end--; }`
of `int_to_string`. -/
def int_to_string_reverse (start end_ : Int) (str : List Nat) : List Nat :=
  if h : start < end_ then
    let temp := str.getD start.toNat 0
    let str := str.set start.toNat (str.getD end_.toNat 0)
    let str := str.set end_.toNat temp
    int_to_string_reverse (start + 1) (end_ - 1) str
  else str
termination_by (end_ - start).toNat
decreasing_by omega

/-- Body of `int_to_string(uint16_t num, char* str)`: the buffer `str` after the call. -/
def int_to_string (num : Int) (str : List Nat) : List Nat :=
  let num := toU16 num
  if num = 0 then
    (str.set 0 ('0').toNat).set 1 0
  else
    let (i, str) := int_to_string_digits num 0 str
    let str := str.set i 0
    int_to_string_reverse 0 ((i : Int) - 1) str

/-- Body of `lcd_draw_number`; `buffer` is the initial content of the local
`char buffer[6]`. -/
def lcd_draw_number (x y num color size : Int) (buffer : List Nat) : List Event :=
  lcd_draw_string x y (int_to_string num buffer) color size

/-! ### Time management -/

/-- The struct `DateTime`; `day`, `month`, `hour`, `minute`, `second` are
`uint8_t` and `year` is `uint16_t`. -/
structure DateTime where
  day : Nat
  month : Nat
  year : Nat
  hour : Nat
  minute : Nat
  second : Nat
  deriving DecidableEq, Repr

/-- Body of `datetime_add_minutes(DateTime* dt, uint8_t minutes)`: the struct after the call. -/
def datetime_add_minutes (dt : DateTime) (minutes : Int) : DateTime :=
  let minutes := toU8 minutes
  let dt := { dt with minute := (dt.minute + minutes) % 256 }
  if dt.minute ≥ 60 then
    let dt := { dt with hour := (dt.hour + dt.minute / 60) % 256 }
    let dt := { dt with minute := dt.minute % 60 }
    if dt.hour ≥ 24 then
      let dt := { dt with day := (dt.day + dt.hour / 24) % 256 }
      { dt with hour := dt.hour % 24 }
    else dt
  else dt

/-! ### Serial telemetry -/

/-- A C string literal in memory: the character codes and the terminating 0. -/
def cstr (s : String) : List Nat := s.toList.map Char.toNat ++ [0]

/-- Body of `uart_send_char(char c)`: the character handed to the UART. -/
def uart_send_char (c : Nat) : List Nat := [c % 256]

/-- Body of `uart_send_string(const char *str)`: the characters handed to the
UART, in order.  `str` is the memory from the pointer on. -/
def uart_send_string : List Nat → List Nat
  | [] => []
  | c :: rest => if c = 0 then [] else uart_send_char c ++ uart_send_string rest

/-- Body of `send_sensor_data`: the characters handed to the UART.  `buffer` is
the initial content of the local `char buffer[16]`, which is reused by the five
conversions. -/
def send_sensor_data (tampered : Bool) (voltage current temp light mag : Int)
    (buffer : List Nat) : List Nat :=
  let out := uart_send_string (cstr "\x7b\"voltage\":")
  let buffer := int_to_string voltage buffer
  let out := out ++ uart_send_string buffer
  let out := out ++ uart_send_string (cstr ",\"current\":")
  let buffer := int_to_string current buffer
  let out := out ++ uart_send_string buffer
  let out := out ++ uart_send_string (cstr ",\"temperature\":")
  let buffer := int_to_string temp buffer
  let out := out ++ uart_send_string buffer
  let out := out ++ uart_send_string (cstr ",\"lightIntensity\":")
  let buffer := int_to_string light buffer
  let out := out ++ uart_send_string buffer
  let out := out ++ uart_send_string (cstr ",\"magneticField\":")
  let buffer := int_to_string mag buffer
  let out := out ++ uart_send_string buffer
  let out := out ++ uart_send_string (cstr ",\"tamperFlag\":")
  let out := out ++ uart_send_char (if tampered then ('1').toNat else ('0').toNat)
  out ++ uart_send_string (cstr "\x7d\r\n")

end Dashboard

/-! ## Face program (`spi_peripheral_multibyte_fifo_poll.c`, ILI9225, 176x220) -/

namespace Face

/-- Panel width `LCD_W`. -/
def LCD_W : Nat := 176

/-- Panel height `LCD_H`. -/
def LCD_H : Nat := 220

/-- Body of `lcd_write_reg(uint16_t reg)`. -/
def lcd_write_reg (reg : Int) : List Event :=
  let reg := toU16 reg
  [Event.dc false] ++ spi_tx (reg >>> 8) ++ spi_tx (reg &&& 0xFF)

/-- Body of `lcd_write_data(uint16_t data)`. -/
def lcd_write_data (data : Int) : List Event :=
  let data := toU16 data
  [Event.dc true] ++ spi_tx (data >>> 8) ++ spi_tx (data &&& 0xFF)

/-- Body of `lcd_write_register(uint16_t reg, uint16_t data)`. -/
def lcd_write_register (reg data : Int) : List Event :=
  lcd_write_reg reg ++ lcd_write_data data

/-- Body of `lcd_set_window(uint16_t x0, uint16_t y0, uint16_t x1, uint16_t y1)`. -/
def lcd_set_window (x0 y0 x1 y1 : Int) : List Event :=
  let x0 := toU16 x0
  let y0 := toU16 y0
  let x1 := toU16 x1
  let y1 := toU16 y1
  let x1 := if x1 ≥ LCD_W then LCD_W - 1 else x1
  let y1 := if y1 ≥ LCD_H then LCD_H - 1 else y1
  lcd_write_register 0x0036 x1 ++
  lcd_write_register 0x0037 x0 ++
  lcd_write_register 0x0038 y1 ++
  lcd_write_register 0x0039 y0 ++
  lcd_write_register 0x0020 x0 ++
  lcd_write_register 0x0021 y0 ++
  lcd_write_reg 0x0022

/-- Body of `lcd_fill_rect(uint16_t x0, uint16_t y0, uint16_t x1, uint16_t y1, uint16_t color)`.
The count `px` is the `int` product converted to `uint32_t`. -/
def lcd_fill_rect (x0 y0 x1 y1 color : Int) : List Event :=
  let x0 := toU16 x0
  let y0 := toU16 y0
  let x1 := toU16 x1
  let y1 := toU16 y1
  let color := toU16 color
  let px : Int := (((x1 : Int) - x0 + 1) * ((y1 : Int) - y0 + 1)) % 4294967296
  lcd_set_window x0 y0 x1 y1 ++ [Event.dc true] ++ stream_color color px.toNat

/-- Body of `lcd_draw_pixel(uint16_t x, uint16_t y, uint16_t color)`. -/
def lcd_draw_pixel (x y color : Int) : List Event :=
  let x := toU16 x
  let y := toU16 y
  let color := toU16 color
  if x ≥ LCD_W ∨ y ≥ LCD_H then []
  else
    lcd_set_window x y x y ++ [Event.dc true] ++
      spi_tx (color >>> 8) ++ spi_tx (color &&& 0xFF)

/-- The inner loop `for (int16_t x = -r; x <= r; x++)` of `lcd_fill_circle`
from the current `x`, in row `y`.  `plot a b` is what the call
`lcd_draw_pixel(cx + x, cy + y, color)` contributes, given its first two
argument values.  The test `x * x + y * y <= r * r` is computed in 32-bit
`int`.  The loop counter is an `int16_t` that may wrap, so the loop runs on
`fuel`: `none` means that the fuel did not suffice. -/
def fill_circle_row {α : Type} (plot : Int → Int → List α) (cx cy r y : Int) :
    Nat → Int → Option (List α)
  | 0, _ => none
  | fuel + 1, x =>
    if x ≤ r then
      (fill_circle_row plot cx cy r y fuel (toI16 (x + 1))).map fun rest =>
        (if toI32 (x * x + y * y) ≤ r * r then plot (cx + x) (cy + y) else []) ++ rest
    else some []

/-- The outer loop `for (int16_t y = -r; y <= r; y++)` of `lcd_fill_circle`
from the current `y`; every inner loop gets `fuel` steps. -/
def fill_circle_rows {α : Type} (plot : Int → Int → List α) (cx cy r : Int) (fuel : Nat) :
    Nat → Int → Option (List α)
  | 0, _ => none
  | n + 1, y =>
    if y ≤ r then
      match fill_circle_row plot cx cy r y fuel (toI16 (-r)),
          fill_circle_rows plot cx cy r fuel n (toI16 (y + 1)) with
      | some row, some rest => some (row ++ rest)
      | _, _ => none
    else some []

/-- Body of `lcd_fill_circle(int16_t cx, int16_t cy, int16_t r, uint16_t color)`
with the call of `lcd_draw_pixel` left as `plot`. -/
def fill_circle_with {α : Type} (plot : Int → Int → List α) (fuel : Nat) (cx cy r : Int) :
    Option (List α) :=
  let cx := toI16 cx
  let cy := toI16 cy
  let r := toI16 r
  fill_circle_rows plot cx cy r fuel fuel (toI16 (-r))

/-- The bus events of `lcd_fill_circle(cx, cy, r, color)`. -/
def lcd_fill_circle (fuel : Nat) (cx cy r color : Int) : Option (List Event) :=
  fill_circle_with (fun a b => lcd_draw_pixel a b color) fuel cx cy r

/-- The calls of `lcd_draw_pixel` that `lcd_fill_circle(cx, cy, r, color)` makes,
in order: the values of the argument expressions `cx + x` and `cy + y`. -/
def lcd_fill_circle_calls (fuel : Nat) (cx cy r : Int) : Option (List (Int × Int)) :=
  fill_circle_with (fun a b => [(a, b)]) fuel cx cy r

/-- The pixels that a sequence of `lcd_draw_pixel` calls writes to the panel:
the arguments as the `uint16_t` parameters receive them, kept when they pass
the bounds check of `lcd_draw_pixel`. -/
def panel_pixels (calls : List (Int × Int)) : List (Nat × Nat) :=
  (calls.map fun p => (toU16 p.1, toU16 p.2)).filter fun q => q.1 < LCD_W ∧ q.2 < LCD_H

end Face

/-! ## Dashboard program: the screen, and what the helpers call and store -/

namespace Dashboard

/-- Colour constant `BLACK`. -/
def BLACK : Nat := 0x0000

/-- Colour constant `BG_RED_LIGHT`. -/
def BG_RED_LIGHT : Nat := 0x52DF

/-- Colour constant `BG_GREEN_LIGHT`. -/
def BG_GREEN_LIGHT : Nat := 0xDFE5

/-- Colour constant `TEXT_BLACK`. -/
def TEXT_BLACK : Nat := 0x0000

/-- Colour constant `TEXT_WHITE`. -/
def TEXT_WHITE : Nat := 0xFFFF

/-- Body of `draw_status_icon(uint16_t x, uint16_t y, bool is_ok)`. -/
def draw_status_icon (x y : Int) (is_ok : Bool) : List Event :=
  let x := toU16 x
  let y := toU16 y
  lcd_fill_rect x y 70 3 TEXT_BLACK ++
  lcd_fill_rect x (y + 87) 70 3 TEXT_BLACK ++
  lcd_fill_rect x y 3 90 TEXT_BLACK ++
  lcd_fill_rect (x + 67) y 3 90 TEXT_BLACK ++
  (if is_ok then
    lcd_fill_rect (x + 15) (y + 15) 40 3 TEXT_BLACK ++
    lcd_fill_rect (x + 15) (y + 62) 40 3 TEXT_BLACK ++
    lcd_fill_rect (x + 15) (y + 15) 3 50 TEXT_BLACK ++
    lcd_fill_rect (x + 52) (y + 15) 3 50 TEXT_BLACK ++
    lcd_fill_rect (x + 25) (y + 28) 6 6 TEXT_BLACK ++
    lcd_fill_rect (x + 42) (y + 28) 6 6 TEXT_BLACK ++
    lcd_fill_rect (x + 23) (y + 48) 26 3 TEXT_BLACK ++
    lcd_fill_rect (x + 23) (y + 45) 3 6 TEXT_BLACK ++
    lcd_fill_rect (x + 46) (y + 45) 3 6 TEXT_BLACK
  else
    lcd_fill_rect (x + 30) (y + 15) 10 45 TEXT_BLACK ++
    lcd_fill_rect (x + 30) (y + 65) 10 10 TEXT_BLACK)

/-- The array `date_str[11]` that `display_meter_screen` fills from the
timestamp; every cell is a `char`, so the sums are reduced to 8 bits. -/
def date_str (last_dt : DateTime) : List Nat :=
  [ (last_dt.day / 10 + ('0').toNat) % 256,
    (last_dt.day % 10 + ('0').toNat) % 256,
    ('/').toNat,
    (last_dt.month / 10 + ('0').toNat) % 256,
    (last_dt.month % 10 + ('0').toNat) % 256,
    ('/').toNat,
    ((last_dt.year / 1000) % 10 + ('0').toNat) % 256,
    ((last_dt.year / 100) % 10 + ('0').toNat) % 256,
    ((last_dt.year / 10) % 10 + ('0').toNat) % 256,
    (last_dt.year % 10 + ('0').toNat) % 256,
    0 ]

/-- The array `time_str[9]` that `display_meter_screen` fills from the timestamp. -/
def time_str (last_dt : DateTime) : List Nat :=
  [ (last_dt.hour / 10 + ('0').toNat) % 256,
    (last_dt.hour % 10 + ('0').toNat) % 256,
    (':').toNat,
    (last_dt.minute / 10 + ('0').toNat) % 256,
    (last_dt.minute % 10 + ('0').toNat) % 256,
    (':').toNat,
    (last_dt.second / 10 + ('0').toNat) % 256,
    (last_dt.second % 10 + ('0').toNat) % 256,
    0 ]

/-- Body of `display_meter_screen`.  `buffer k` is the initial content of the
local `char buffer[6]` of the `k`-th call of `lcd_draw_number`. -/
def display_meter_screen (is_tamper voltage curr temp light mag events : Int)
    (last_dt : DateTime) (buffer : Nat → List Nat) : List Event :=
  let is_tamper := toU8 is_tamper
  let bg_color := if is_tamper ≠ 0 then BG_RED_LIGHT else BG_GREEN_LIGHT
  let status_text := if is_tamper ≠ 0 then cstr "TAMPERING" else cstr "NORMAL"
  lcd_fill bg_color ++
  lcd_draw_string 40 8 (cstr "LATEST TAMPER") TEXT_BLACK 2 ++
  lcd_draw_string 60 28 (date_str last_dt) TEXT_BLACK 2 ++
  lcd_draw_string 72 46 (time_str last_dt) TEXT_BLACK 2 ++
  lcd_fill_rect 10 64 220 2 TEXT_BLACK ++
  lcd_draw_string 10 75 (cstr "V :  ") TEXT_BLACK 2 ++
  lcd_draw_number 52 75 voltage TEXT_BLACK 2 (buffer 0) ++
  lcd_draw_string 88 75 (cstr " V") TEXT_BLACK 2 ++
  lcd_draw_string 10 105 (cstr "I :  ") TEXT_BLACK 2 ++
  lcd_draw_number 52 105 curr TEXT_BLACK 2 (buffer 1) ++
  lcd_draw_string 88 105 (cstr " A") TEXT_BLACK 2 ++
  lcd_draw_string 10 135 (cstr "T :  ") TEXT_BLACK 2 ++
  lcd_draw_number 52 135 temp TEXT_BLACK 2 (buffer 2) ++
  lcd_draw_string 88 135 (cstr " C") TEXT_BLACK 2 ++
  lcd_draw_string 10 165 (cstr "L :  ") TEXT_BLACK 2 ++
  lcd_draw_number 52 165 light TEXT_BLACK 2 (buffer 3) ++
  lcd_draw_string 88 165 (cstr " lx") TEXT_BLACK 2 ++
  lcd_draw_string 10 195 (cstr "M :  ") TEXT_BLACK 2 ++
  lcd_draw_number 52 195 mag TEXT_BLACK 2 (buffer 4) ++
  lcd_draw_string 88 195 (cstr " T") TEXT_BLACK 2 ++
  lcd_draw_string 10 225 (cstr "E :  ") TEXT_BLACK 2 ++
  lcd_draw_number 52 225 events TEXT_BLACK 2 (buffer 5) ++
  draw_status_icon 160 110 (is_tamper = 0) ++
  lcd_fill_rect 0 270 240 50 BLACK ++
  lcd_draw_string (if is_tamper ≠ 0 then 12 else 48) 283 status_text TEXT_WHITE 4

/-- The calls of `lcd_draw_pixel` made by the loop over `j` of `lcd_draw_char`
(the loop of `draw_char_rows`), in order: the values of the argument
expressions `x + i*size + sx` and `y + j*size + sy`. -/
def draw_char_rows_calls (x y size i : Nat) : Nat → Nat → Nat → List (Int × Int)
  | 0, _, _ => []
  | n + 1, j, line =>
    (if line &&& 0x01 ≠ 0 then
      (List.range size).flatMap fun sx =>
        (List.range size).map fun sy =>
          (((x + i * size + sx : Nat) : Int), ((y + j * size + sy : Nat) : Int))
    else []) ++
    draw_char_rows_calls x y size i n (j + 1) ((line >>> 1) % 256)

/-- The calls of `lcd_draw_pixel` that `lcd_draw_char(x, y, c, color, size)`
makes, in order. -/
def lcd_draw_char_calls (x y c size : Int) : List (Int × Int) :=
  let x := toU16 x
  let y := toU16 y
  let c := toU8 c
  let size := toU8 size
  match glyph_index c with
  | none => []
  | some idx =>
    (List.range 5).flatMap fun i =>
      draw_char_rows_calls x y size i 8 0 ((font5x7.getD idx []).getD i 0)

/-- The digit loop of `int_to_string` as in `int_to_string_digits`, returning
also the indices `i` of the stores `str[i++] = ...`, in order. -/
def int_to_string_digits_logged (num i : Nat) (str : List Nat) : Nat × List Nat × List Int :=
  if h : num > 0 then
    let r := int_to_string_digits_logged (num / 10) (i + 1)
      (str.set i ((num % 10 + ('0').toNat) % 256))
    (r.1, r.2.1, (i : Int) :: r.2.2)
  else (i, str, [])
termination_by num
decreasing_by exact Nat.div_lt_self h (by decide)

/-- The swap loop of `int_to_string` as in `int_to_string_reverse`, returning
also the indices of the stores `str[start] = ...` and `str[end] = ...`, in order. -/
def int_to_string_reverse_logged (start end_ : Int) (str : List Nat) : List Nat × List Int :=
  if h : start < end_ then
    let temp := str.getD start.toNat 0
    let str := str.set start.toNat (str.getD end_.toNat 0)
    let str := str.set end_.toNat temp
    let r := int_to_string_reverse_logged (start + 1) (end_ - 1) str
    (r.1, start :: end_ :: r.2)
  else (str, [])
termination_by (end_ - start).toNat
decreasing_by omega

/-- Body of `int_to_string` as in `int_to_string`, returning the buffer
together with the index of every store into `str`, in program order. -/
def int_to_string_logged (num : Int) (str : List Nat) : List Nat × List Int :=
  let num := toU16 num
  if num = 0 then
    ((str.set 0 ('0').toNat).set 1 0, [0, 1])
  else
    let r := int_to_string_digits_logged num 0 str
    let str := r.2.1.set r.1 0
    let q := int_to_string_reverse_logged 0 ((r.1 : Int) - 1) str
    (q.1, r.2.2 ++ [(r.1 : Int)] ++ q.2)

/-! ### Random numbers and the main loop -/

/-- Timing constant `DELAY`. -/
def DELAY : Nat := 3000

/-- Initial value of the global `seed`. -/
def seed_init : Nat := 12345

/-- Body of `random_range(uint16_t min, uint16_t max)` on the global `seed`
(a `uint32_t`): the new seed and the returned value, or `none` when the
remainder is taken by zero.  The product and sum wrap in 32 bits; the divisor
`max - min + 1` is an `int` that the unsigned `%` converts to `uint32_t`; the
unsigned sum is converted to the `uint16_t` return type. -/
def random_range (seed : Nat) (min max : Int) : Option (Nat × Nat) :=
  let min := toU16 min
  let max := toU16 max
  let seed := ((seed * 1103515245 + 12345) % 4294967296) &&& 0x7fffffff
  let divisor := toU32 ((max : Int) - min + 1)
  if divisor = 0 then none
  else some (seed, toU16 (((min + seed % divisor) % 4294967296 : Nat) : Int))

/-- The variables of `main` that live across loop iterations, with the global `seed`. -/
structure MainState where
  seed : Nat
  hist_voltage : Nat
  hist_current : Nat
  hist_temp : Nat
  hist_light : Nat
  hist_mag : Nat
  hist_events : Nat
  last_tamper_dt : DateTime
  loop_counter : Nat
  deriving DecidableEq, Repr

/-- The sensor values of one loop iteration of `main`. -/
structure Sample where
  is_tamper : Bool
  voltage : Nat
  current : Nat
  temp : Nat
  light : Nat
  mag : Nat
  deriving DecidableEq, Repr

/-- The state of `main` when it enters `while(1)`. -/
def main_init : MainState :=
  { seed := seed_init, hist_voltage := 237, hist_current := 95, hist_temp := 48,
    hist_light := 189, hist_mag := 112, hist_events := 1,
    last_tamper_dt := ⟨10, 1, 2026, 1, 5, 0⟩, loop_counter := 0 }

/-- What `main` sends before the loop: the pins and `ili9341_init`, the greeting
on the UART and the first screen. -/
def main_start (lcd_buffer : Nat → List Nat) : List Nat × List Event :=
  (uart_send_string (cstr "Smart Meter System initialized\r\n"),
   [Event.dc false, Event.rst true] ++ ili9341_init ++
     display_meter_screen 0 main_init.hist_voltage main_init.hist_current main_init.hist_temp
       main_init.hist_light main_init.hist_mag main_init.hist_events main_init.last_tamper_dt
       lcd_buffer)

/-- One iteration of the body of `while(1)` in `main`: the next state, the
sensor values drawn, the characters sent on the UART and the panel events
(ending with `delay_ms(DELAY)`); `none` when a `random_range` call divides by
zero.  `uart_buffer` and `lcd_buffer` are the initial contents of the local
buffers of `send_sensor_data` and of the `lcd_draw_number` calls. -/
def main_loop_body (s : MainState) (uart_buffer : List Nat) (lcd_buffer : Nat → List Nat) :
    Option (MainState × Sample × List Nat × List Event) :=
  let loop_counter := (s.loop_counter + 1) % 65536
  let is_tamper : Bool := loop_counter % 4 = 0
  match random_range s.seed 230 240 with
  | none => none
  | some (seed, voltage) =>
    if is_tamper then
      match random_range seed 50 150 with
      | none => none
      | some (seed, current) =>
      match random_range seed 40 60 with
      | none => none
      | some (seed, temp) =>
      match random_range seed 150 250 with
      | none => none
      | some (seed, light) =>
      match random_range seed 80 150 with
      | none => none
      | some (seed, mag) =>
        let hist_events := (s.hist_events + 1) % 65536
        let last_tamper_dt := datetime_add_minutes s.last_tamper_dt 5
        some (
          { seed := seed, hist_voltage := voltage, hist_current := current, hist_temp := temp,
            hist_light := light, hist_mag := mag, hist_events := hist_events,
            last_tamper_dt := last_tamper_dt, loop_counter := loop_counter },
          ⟨true, voltage, current, temp, light, mag⟩,
          send_sensor_data true voltage current temp light mag uart_buffer,
          display_meter_screen 1 voltage current temp light mag hist_events last_tamper_dt
            lcd_buffer ++ delay_ms DELAY)
    else
      match random_range seed 1 15 with
      | none => none
      | some (seed, current) =>
      match random_range seed 20 35 with
      | none => none
      | some (seed, temp) =>
      match random_range seed 0 30 with
      | none => none
      | some (seed, light) =>
      match random_range seed 0 10 with
      | none => none
      | some (seed, mag) =>
        some (
          { s with seed := seed, loop_counter := loop_counter },
          ⟨false, voltage, current, temp, light, mag⟩,
          send_sensor_data false voltage current temp light mag uart_buffer,
          display_meter_screen 0 s.hist_voltage s.hist_current s.hist_temp s.hist_light
            s.hist_mag s.hist_events s.last_tamper_dt lcd_buffer ++ delay_ms DELAY)

end Dashboard

/-! ## Reference definitions used by the statements -/

/-- The character codes of a text. -/
def chars (s : String) : List Nat := s.toList.map Char.toNat

/-- The C string held by a memory region: the cells before the first 0. -/
def c_string (mem : List Nat) : List Nat := mem.takeWhile (· ≠ 0)

/-- The decimal numeral of `n` as character codes, most significant digit
first, without leading zero; `"0"` for zero. -/
def decimal_numeral (n : Nat) : List Nat :=
  if n = 0 then [('0').toNat] else (Nat.digits 10 n).reverse.map (· + ('0').toNat)

/-- Reading a string of decimal digits as a number. -/
def parse_decimal (s : List Nat) : Nat := s.foldl (fun acc c => 10 * acc + (c - ('0').toNat)) 0

/-- The integers `a`, `a + 1`, ..., `a + n - 1`. -/
def int_range (a : Int) (n : Nat) : List Int := (List.range n).map fun (i : Nat) => a + (i : Int)

/-- The offsets `(dx, dy)` of the rasterised disk of radius `r`, row by row:
`-r ≤ dx, dy ≤ r` and `dx² + dy² ≤ r²`. -/
def disk_offsets (r : Int) : List (Int × Int) :=
  (int_range (-r) (2 * r + 1).toNat).flatMap fun y =>
    ((int_range (-r) (2 * r + 1).toNat).filter fun x => x * x + y * y ≤ r * r).map fun x => (x, y)

/-- The supported characters of `lcd_draw_char`, in the order of their glyphs
in `font5x7`: the character at position `k` has glyph `k`. -/
def supported_chars : List Nat := chars " 0123456789:ACDEFGHILMNOPRSTVY/lx"

/-- Bit `row` of column byte `col` of glyph `k` of `font5x7`. -/
def glyph_bit (k col row : Nat) : Bool := ((Dashboard.font5x7.getD k []).getD col 0).testBit row

/-- The number of set bits among the 8 low bits of a column byte. -/
def set_bits (line : Nat) : Nat := ((List.range 8).filter fun row => line.testBit row).length

/-- The number of set bits of glyph `k` of `font5x7`. -/
def glyph_bits (k : Nat) : Nat :=
  ((List.range 5).map fun col => set_bits ((Dashboard.font5x7.getD k []).getD col 0)).sum

/-- The generator step of `random_range`: `seed * 1103515245 + 12345` wrapped to
32 bits and masked to 31 bits. -/
def lcg_next (seed : Nat) : Nat := (seed * 1103515245 + 12345) % 4294967296 % 2147483648

/-! # Verification -/

/-! ## Machine-integer lemmas -/

theorem toU16_natCast (n : Nat) : toU16 (n : Int) = n % 65536 := by
  unfold toU16; omega

theorem toU16_of_lt (n : Nat) (h : n < 65536) : toU16 (n : Int) = n := by
  unfold toU16; omega

theorem toU16_lt (v : Int) : toU16 v < 65536 := by
  unfold toU16; omega

theorem toU16_toU16 (v : Int) : toU16 (toU16 v : Int) = toU16 v := by
  unfold toU16; omega

theorem shr8_eq (n : Nat) : n >>> 8 = n / 256 := by
  rw [Nat.shiftRight_eq_div_pow]

theorem and255_eq (n : Nat) : n &&& 0xFF = n % 256 :=
  Nat.and_pow_two_sub_one_eq_mod n 8

theorem hi_byte_mod (n : Nat) (h : n < 65536) : (n >>> 8) % 256 = n >>> 8 := by
  rw [shr8_eq]; omega

theorem lo_byte_mod (n : Nat) : (n &&& 0xFF) % 256 = n &&& 0xFF := by
  rw [and255_eq]; omega

/-- C1: in both panel variants, for every colour and every `x`, `y` inside the
panel, `lcd_draw_pixel(x, y, color)` is one `lcd_set_window(x, y, x, y)` followed
by the data/command line driven high and two bytes, `color >> 8` and then
`color & 0xFF`, and nothing else. -/
theorem lcd_draw_pixel_in_bounds (x y color : Nat) (hc : color < 65536) :
    (x < 240 → y < 320 →
      Dashboard.lcd_draw_pixel x y color =
        Dashboard.lcd_set_window x y x y ++
          [Event.dc true, Event.tx (color >>> 8), Event.tx (color &&& 0xFF)]) ∧
    (x < 176 → y < 220 →
      Face.lcd_draw_pixel x y color =
        Face.lcd_set_window x y x y ++
          [Event.dc true, Event.tx (color >>> 8), Event.tx (color &&& 0xFF)]) := by
  constructor
  · intro hx hy
    have hx2 : toU16 (x : Int) = x := toU16_of_lt x (by omega)
    have hy2 : toU16 (y : Int) = y := toU16_of_lt y (by omega)
    have hc2 : toU16 (color : Int) = color := toU16_of_lt color hc
    unfold Dashboard.lcd_draw_pixel
    simp only [hx2, hy2, hc2]
    rw [if_neg (by omega)]
    simp [spi_tx, hi_byte_mod color hc, lo_byte_mod]
  · intro hx hy
    have hx2 : toU16 (x : Int) = x := toU16_of_lt x (by omega)
    have hy2 : toU16 (y : Int) = y := toU16_of_lt y (by omega)
    have hc2 : toU16 (color : Int) = color := toU16_of_lt color hc
    unfold Face.lcd_draw_pixel
    simp only [hx2, hy2, hc2, Face.LCD_W, Face.LCD_H]
    rw [if_neg (by omega)]
    simp [spi_tx, hi_byte_mod color hc, lo_byte_mod]

theorem lcd_draw_pixel_in_bounds_witness :
    Dashboard.lcd_draw_pixel (3 : Nat) (4 : Nat) (0x1234 : Nat) =
        Dashboard.lcd_set_window (3 : Nat) (4 : Nat) (3 : Nat) (4 : Nat) ++
          [Event.dc true, Event.tx (0x1234 >>> 8), Event.tx (0x1234 &&& 0xFF)] ∧
    Face.lcd_draw_pixel (3 : Nat) (4 : Nat) (0x1234 : Nat) =
        Face.lcd_set_window (3 : Nat) (4 : Nat) (3 : Nat) (4 : Nat) ++
          [Event.dc true, Event.tx (0x1234 >>> 8), Event.tx (0x1234 &&& 0xFF)] :=
  ⟨(lcd_draw_pixel_in_bounds 3 4 0x1234 (by decide)).1 (by decide) (by decide),
   (lcd_draw_pixel_in_bounds 3 4 0x1234 (by decide)).2 (by decide) (by decide)⟩

/-- C2: in both panel variants, for every colour and every 16-bit `x`, `y` with
`x` at or beyond the panel width or `y` at or beyond the panel height, also
when the coordinate was a negative 16-bit value before its conversion to
`uint16_t`, `lcd_draw_pixel` produces no event at all. -/
theorem lcd_draw_pixel_out_of_bounds (x y color : Int)
    (hx : -32768 ≤ x ∧ x < 65536) (hy : -32768 ≤ y ∧ y < 65536) :
    (x < 0 ∨ 240 ≤ x ∨ y < 0 ∨ 320 ≤ y → Dashboard.lcd_draw_pixel x y color = []) ∧
    (x < 0 ∨ 176 ≤ x ∨ y < 0 ∨ 220 ≤ y → Face.lcd_draw_pixel x y color = []) := by
  constructor
  · intro h
    unfold Dashboard.lcd_draw_pixel
    simp only []
    rw [if_pos]
    unfold toU16
    omega
  · intro h
    unfold Face.lcd_draw_pixel
    simp only [Face.LCD_W, Face.LCD_H]
    rw [if_pos]
    unfold toU16
    omega

theorem lcd_draw_pixel_out_of_bounds_witness :
    Dashboard.lcd_draw_pixel 240 0 0x1234 = [] ∧ Face.lcd_draw_pixel (-1) 5 0x1234 = [] :=
  ⟨(lcd_draw_pixel_out_of_bounds 240 0 0x1234 (by decide) (by decide)).1 (by decide),
   (lcd_draw_pixel_out_of_bounds (-1) 5 0x1234 (by decide) (by decide)).2 (by decide)⟩

theorem stream_color_eq (color : Nat) (hc : color < 65536) (n : Nat) :
    stream_color color n =
      (List.replicate n [Event.tx (color >>> 8), Event.tx (color &&& 0xFF)]).flatten := by
  induction n with
  | zero => rfl
  | succ n ih =>
    simp [stream_color, spi_tx, hi_byte_mod color hc, lo_byte_mod, ih, List.replicate_succ]

theorem count_dc_low_stream_color (color n : Nat) :
    (stream_color color n).count (Event.dc false) = 0 := by
  induction n with
  | zero => rfl
  | succ n ih => simp [stream_color, spi_tx, ih]

theorem count_dc_low_set_window (x0 y0 x1 y1 : Int) :
    (Dashboard.lcd_set_window x0 y0 x1 y1).count (Event.dc false) = 3 := by
  simp [Dashboard.lcd_set_window, Dashboard.lcd_cmd, Dashboard.lcd_data, spi_tx]

/-- The dashboard `lcd_fill_rect` as one call of `lcd_set_window`, the
data/command line driven high, and the colour stream. -/
theorem lcd_fill_rect_eq_set_window (x y w h color : Nat)
    (hx : x < 65536) (hy : y < 65536) (hw : w < 65536) (hh : h < 65536)
    (hc : color < 65536) :
    Dashboard.lcd_fill_rect x y w h color =
        Dashboard.lcd_set_window x y ((x : Int) + w - 1) ((y : Int) + h - 1) ++
          [Event.dc true] ++
          (List.replicate (w * h) [Event.tx (color >>> 8), Event.tx (color &&& 0xFF)]).flatten ∧
    (Dashboard.lcd_fill_rect x y w h color).count (Event.dc false) = 3 := by
  have hwh : w * h % 4294967296 = w * h := by
    apply Nat.mod_eq_of_lt
    have : w * h ≤ 65535 * 65535 := Nat.mul_le_mul (by omega) (by omega)
    omega
  have e : Dashboard.lcd_fill_rect x y w h color =
      Dashboard.lcd_set_window x y ((x : Int) + w - 1) ((y : Int) + h - 1) ++
        [Event.dc true] ++ stream_color color (w * h) := by
    unfold Dashboard.lcd_fill_rect
    simp only [toU16_of_lt x hx, toU16_of_lt y hy, toU16_of_lt w hw, toU16_of_lt h hh,
      toU16_of_lt color hc, hwh]
  constructor
  · rw [e, stream_color_eq color hc]
  · rw [e]
    simp [count_dc_low_set_window, count_dc_low_stream_color]

/-- What the dashboard `lcd_set_window` puts on the bus: command 0x2A with the
start and end column, command 0x2B with the start and end row, each as high
byte then low byte of the 16-bit parameter, then command 0x2C. -/
theorem dashboard_set_window_bytes (x0 y0 x1 y1 : Int) :
    Dashboard.lcd_set_window x0 y0 x1 y1 =
      [Event.dc false, Event.tx 0x2A,
        Event.dc true, Event.tx (toU16 x0 >>> 8), Event.dc true, Event.tx (toU16 x0 &&& 0xFF),
        Event.dc true, Event.tx (toU16 x1 >>> 8), Event.dc true, Event.tx (toU16 x1 &&& 0xFF),
        Event.dc false, Event.tx 0x2B,
        Event.dc true, Event.tx (toU16 y0 >>> 8), Event.dc true, Event.tx (toU16 y0 &&& 0xFF),
        Event.dc true, Event.tx (toU16 y1 >>> 8), Event.dc true, Event.tx (toU16 y1 &&& 0xFF),
        Event.dc false, Event.tx 0x2C] := by
  unfold Dashboard.lcd_set_window Dashboard.lcd_cmd Dashboard.lcd_data spi_tx
  simp [hi_byte_mod _ (toU16_lt _), lo_byte_mod]

theorem bytes_of_u16 (n : Nat) (h : n < 65536) :
    n >>> 8 < 256 ∧ n &&& 0xFF < 256 ∧ (n >>> 8) * 256 + (n &&& 0xFF) = n := by
  rw [shr8_eq, and255_eq]
  omega

/-- C3, as stated, fails: `lcd_fill_rect(65535, 0, 2, 1, 0)` sends the end
column bytes `0x00 0x00`, so the window programmed is `(65535, 0, 0, 0)` and its
end column 0 is not `x + w - 1 = 65536`; and `lcd_fill_rect(0, 0, 0, 0, 0)` sends
`0xFF 0xFF` for the end column and the end row (65535, not `-1`) and no colour
value. -/
theorem dashboard_fill_rect_window_wraps :
    Dashboard.lcd_fill_rect 65535 0 2 1 0 =
      [Event.dc false, Event.tx 0x2A,
        Event.dc true, Event.tx 0xFF, Event.dc true, Event.tx 0xFF,
        Event.dc true, Event.tx 0x00, Event.dc true, Event.tx 0x00,
        Event.dc false, Event.tx 0x2B,
        Event.dc true, Event.tx 0x00, Event.dc true, Event.tx 0x00,
        Event.dc true, Event.tx 0x00, Event.dc true, Event.tx 0x00,
        Event.dc false, Event.tx 0x2C,
        Event.dc true, Event.tx 0, Event.tx 0, Event.tx 0, Event.tx 0] ∧
    ¬ ((0x00 * 256 + 0x00 : Int) = 65535 + 2 - 1) ∧
    Dashboard.lcd_fill_rect 0 0 0 0 0 =
      [Event.dc false, Event.tx 0x2A,
        Event.dc true, Event.tx 0x00, Event.dc true, Event.tx 0x00,
        Event.dc true, Event.tx 0xFF, Event.dc true, Event.tx 0xFF,
        Event.dc false, Event.tx 0x2B,
        Event.dc true, Event.tx 0x00, Event.dc true, Event.tx 0x00,
        Event.dc true, Event.tx 0xFF, Event.dc true, Event.tx 0xFF,
        Event.dc false, Event.tx 0x2C,
        Event.dc true] ∧
    ¬ ((0xFF * 256 + 0xFF : Int) = 0 + 0 - 1) := by
  decide

/-- C3, amended: for every 16-bit `x`, `y`, `w`, `h` and colour, the dashboard
`lcd_fill_rect(x, y, w, h, color)` sends exactly: command 0x2A with the columns
`x` and `(x+w-1) mod 65536`, command 0x2B with the rows `y` and
`(y+h-1) mod 65536` (each value as high byte then low byte), command 0x2C, the
data/command line driven high, and then `w*h` times the two bytes of the
colour, high byte first.  The window is programmed once (these are the only
three command transfers), and its end corner is `(x+w-1, y+h-1)` whenever
`w ≥ 1`, `h ≥ 1`, `x + w ≤ 65536` and `y + h ≤ 65536`. -/
theorem lcd_fill_rect_window_and_stream (x y w h color : Nat)
    (hx : x < 65536) (hy : y < 65536) (hw : w < 65536) (hh : h < 65536)
    (hc : color < 65536) :
    Dashboard.lcd_fill_rect x y w h color =
        [Event.dc false, Event.tx 0x2A,
          Event.dc true, Event.tx (x >>> 8), Event.dc true, Event.tx (x &&& 0xFF),
          Event.dc true, Event.tx (toU16 ((x : Int) + w - 1) >>> 8),
          Event.dc true, Event.tx (toU16 ((x : Int) + w - 1) &&& 0xFF),
          Event.dc false, Event.tx 0x2B,
          Event.dc true, Event.tx (y >>> 8), Event.dc true, Event.tx (y &&& 0xFF),
          Event.dc true, Event.tx (toU16 ((y : Int) + h - 1) >>> 8),
          Event.dc true, Event.tx (toU16 ((y : Int) + h - 1) &&& 0xFF),
          Event.dc false, Event.tx 0x2C] ++
          [Event.dc true] ++
          (List.replicate (w * h) [Event.tx (color >>> 8), Event.tx (color &&& 0xFF)]).flatten ∧
    (Dashboard.lcd_fill_rect x y w h color).count (Event.dc false) = 3 ∧
    ((x >>> 8) * 256 + (x &&& 0xFF) = x ∧ (y >>> 8) * 256 + (y &&& 0xFF) = y ∧
      (toU16 ((x : Int) + w - 1) >>> 8) * 256 + (toU16 ((x : Int) + w - 1) &&& 0xFF) =
        toU16 ((x : Int) + w - 1) ∧
      (toU16 ((y : Int) + h - 1) >>> 8) * 256 + (toU16 ((y : Int) + h - 1) &&& 0xFF) =
        toU16 ((y : Int) + h - 1) ∧
      (color >>> 8) * 256 + (color &&& 0xFF) = color) ∧
    ((toU16 ((x : Int) + w - 1) : Int) = ((x : Int) + w - 1) % 65536 ∧
      (toU16 ((y : Int) + h - 1) : Int) = ((y : Int) + h - 1) % 65536) ∧
    (1 ≤ w → x + w ≤ 65536 → toU16 ((x : Int) + w - 1) = x + w - 1) ∧
    (1 ≤ h → y + h ≤ 65536 → toU16 ((y : Int) + h - 1) = y + h - 1) := by
  obtain ⟨e, hcount⟩ := lcd_fill_rect_eq_set_window x y w h color hx hy hw hh hc
  refine ⟨?_, hcount, ⟨(bytes_of_u16 x hx).2.2, (bytes_of_u16 y hy).2.2,
    (bytes_of_u16 _ (toU16_lt _)).2.2, (bytes_of_u16 _ (toU16_lt _)).2.2,
    (bytes_of_u16 color hc).2.2⟩, ⟨?_, ?_⟩, ?_, ?_⟩
  · rw [e, dashboard_set_window_bytes, toU16_of_lt x hx, toU16_of_lt y hy]
  · unfold toU16; omega
  · unfold toU16; omega
  · intro h1 h2; unfold toU16; omega
  · intro h1 h2; unfold toU16; omega

theorem lcd_fill_rect_window_and_stream_witness :
    Dashboard.lcd_fill_rect 10 64 220 2 0 =
        [Event.dc false, Event.tx 0x2A,
          Event.dc true, Event.tx 0, Event.dc true, Event.tx 10,
          Event.dc true, Event.tx 0, Event.dc true, Event.tx 229,
          Event.dc false, Event.tx 0x2B,
          Event.dc true, Event.tx 0, Event.dc true, Event.tx 64,
          Event.dc true, Event.tx 0, Event.dc true, Event.tx 65,
          Event.dc false, Event.tx 0x2C] ++
          [Event.dc true] ++
          (List.replicate (220 * 2) [Event.tx 0, Event.tx 0]).flatten ∧
    (Dashboard.lcd_fill_rect 10 64 220 2 0).count (Event.dc false) = 3 ∧
    toU16 ((10 : Int) + 220 - 1) = 229 ∧ toU16 ((64 : Int) + 2 - 1) = 65 := by
  have h := lcd_fill_rect_window_and_stream 10 64 220 2 0 (by decide) (by decide) (by decide)
    (by decide) (by decide)
  exact ⟨h.1, h.2.1, h.2.2.2.2.1 (by decide) (by decide), h.2.2.2.2.2 (by decide) (by decide)⟩

/-! ## Strings -/

theorem toU16_toU16_add_toU16 (a b : Int) :
    toU16 ((toU16 a : Int) + (toU16 b : Int)) = toU16 (a + b) := by
  unfold toU16; omega

theorem toU8_natCast (n : Nat) : toU8 (n : Int) = n % 256 := by
  unfold toU8; omega

theorem digits_length_le (k : Nat) : ∀ n : Nat, n < 10 ^ k → (Nat.digits 10 n).length ≤ k := by
  induction k with
  | zero => intro n hn; simp at hn; simp [hn]
  | succ k ih =>
    intro n hn
    rcases Nat.eq_zero_or_pos n with h0 | hpos
    · simp [h0]
    · rw [Nat.digits_def' (by decide) hpos]
      have : n / 10 < 10 ^ k := by
        rw [Nat.div_lt_iff_lt_mul (by decide)]
        rw [pow_succ] at hn
        exact hn
      have := ih (n / 10) this
      simp only [List.length_cons]
      omega

theorem int_to_string_digits_eq (num : Nat) : ∀ (pre tail : List Nat),
    (Nat.digits 10 num).length ≤ tail.length →
    Dashboard.int_to_string_digits num pre.length (pre ++ tail) =
      (pre.length + (Nat.digits 10 num).length,
        pre ++ (Nat.digits 10 num).map (· + 48) ++ tail.drop (Nat.digits 10 num).length) := by
  induction num using Nat.strong_induction_on with
  | _ num ih =>
    intro pre tail hlen
    rw [Dashboard.int_to_string_digits]
    split
    · rename_i hpos
      rw [Nat.digits_def' (by decide) hpos] at hlen ⊢
      cases tail with
      | nil => simp at hlen
      | cons t0 tail =>
        simp only [List.length_cons] at hlen
        have hset : (pre ++ t0 :: tail).set pre.length ((num % 10 + ('0').toNat) % 256) =
            (pre ++ [num % 10 + 48]) ++ tail := by
          rw [List.set_append_right _ _ (le_refl _)]
          have : (num % 10 + ('0').toNat) % 256 = num % 10 + 48 := by
            have : ('0').toNat = 48 := by decide
            omega
          rw [this]
          simp
        rw [hset]
        have hl : pre.length + 1 = (pre ++ [num % 10 + 48]).length := by simp
        rw [hl, ih (num / 10) (Nat.div_lt_self hpos (by decide)) _ tail (by omega)]
        simp [Nat.add_assoc]
        omega
    · rename_i hz
      have : num = 0 := by omega
      subst this
      simp

theorem int_to_string_reverse_eq (mid : List Nat) : ∀ (pre post : List Nat),
    Dashboard.int_to_string_reverse pre.length ((pre.length : Int) + mid.length - 1)
        (pre ++ mid ++ post) = pre ++ mid.reverse ++ post := by
  induction mid using List.bidirectionalRec with
  | nil =>
    intro pre post
    rw [Dashboard.int_to_string_reverse, dif_neg (by simp)]
    simp
  | singleton a =>
    intro pre post
    rw [Dashboard.int_to_string_reverse, dif_neg (by simp)]
    simp
  | cons_append a m b ih =>
    intro pre post
    have hL : (a :: (m ++ [b])).length = m.length + 2 := by simp
    have hL2 : (pre ++ a :: m).length = pre.length + m.length + 1 := by
      simp only [List.length_append, List.length_cons]; omega
    have hL3 : (pre ++ [b]).length = pre.length + 1 := by simp
    have hlt : (pre.length : Int) < (pre.length : Int) + ((a :: (m ++ [b])).length : Nat) - 1 := by
      rw [hL]; push_cast; omega
    rw [Dashboard.int_to_string_reverse, dif_pos hlt]
    have hs : ((pre.length : Nat) : Int).toNat = pre.length := by omega
    have he : ((pre.length : Int) + ((a :: (m ++ [b])).length : Nat) - 1).toNat =
        (pre ++ a :: m).length := by
      rw [hL, hL2]; push_cast; omega
    have hstr : pre ++ a :: (m ++ [b]) ++ post = (pre ++ a :: m) ++ b :: post := by simp
    have hstr2 : pre ++ a :: (m ++ [b]) ++ post = pre ++ (a :: (m ++ [b]) ++ post) := by simp
    have hget1 : (pre ++ a :: (m ++ [b]) ++ post).getD pre.length 0 = a := by
      rw [hstr2, List.getD_append_right _ _ _ _ (le_refl _)]
      simp
    have hget2 : (pre ++ a :: (m ++ [b]) ++ post).getD (pre ++ a :: m).length 0 = b := by
      rw [hstr, List.getD_append_right _ _ _ _ (le_refl _)]
      simp
    have hset1 : (pre ++ a :: (m ++ [b]) ++ post).set pre.length b =
        (pre ++ b :: m) ++ b :: post := by
      rw [hstr2, List.set_append_right _ _ (le_refl _)]
      simp
    have hset2 : ((pre ++ b :: m) ++ b :: post).set (pre ++ a :: m).length a =
        (pre ++ [b]) ++ m ++ (a :: post) := by
      have hl : (pre ++ a :: m).length = (pre ++ b :: m).length := by simp
      rw [hl, List.set_append_right _ _ (le_refl _)]
      simp
    simp only [hs, he, hget1, hget2, hset1, hset2]
    have hidx1 : (pre.length : Int) + 1 = ((pre ++ [b]).length : Nat) := by
      rw [hL3]; push_cast; rfl
    have hidx2 : (pre.length : Int) + ((a :: (m ++ [b])).length : Nat) - 1 - 1 =
        ((pre ++ [b]).length : Nat) + (m.length : Nat) - 1 := by
      rw [hL, hL3]; push_cast; omega
    rw [hidx1, hidx2, ih (pre ++ [b]) (a :: post)]
    simp

theorem int_to_string_eq (num : Nat) (str : List Nat) (hnum : num < 65536)
    (hlen : 6 ≤ str.length) :
    Dashboard.int_to_string num str =
      decimal_numeral num ++ 0 :: str.drop ((decimal_numeral num).length + 1) := by
  unfold Dashboard.int_to_string
  simp only [toU16_of_lt num hnum]
  by_cases h0 : num = 0
  · subst h0
    match str, hlen with
    | a :: b :: rest, _ => simp [decimal_numeral]
  · rw [if_neg h0]
    have hd : (Nat.digits 10 num).length ≤ 5 := digits_length_le 5 num (by norm_num; omega)
    have h1 := int_to_string_digits_eq num [] str (by omega)
    simp only [List.length_nil, List.nil_append, Nat.zero_add] at h1
    rw [h1]
    simp only []
    obtain ⟨r0, rest, hr⟩ : ∃ r0 rest, str.drop (Nat.digits 10 num).length = r0 :: rest := by
      cases hdr : str.drop (Nat.digits 10 num).length with
      | nil =>
        have := congrArg List.length hdr
        simp at this
        omega
      | cons r0 rest => exact ⟨r0, rest, rfl⟩
    have hrest : rest = str.drop ((Nat.digits 10 num).length + 1) := by
      have := congrArg List.tail hr
      simp at this
      rw [← this]
    rw [hr]
    have hset : (List.map (fun x => x + 48) (Nat.digits 10 num) ++ r0 :: rest).set
        (Nat.digits 10 num).length 0 =
        List.map (fun x => x + 48) (Nat.digits 10 num) ++ 0 :: rest := by
      have hl : (Nat.digits 10 num).length =
          (List.map (fun x => x + 48) (Nat.digits 10 num)).length := by simp
      rw [hl, List.set_append_right _ _ (le_refl _)]
      simp
    rw [hset]
    have h2 := int_to_string_reverse_eq (List.map (fun x => x + 48) (Nat.digits 10 num)) []
      (0 :: rest)
    simp only [List.length_nil, List.nil_append, List.length_map, Nat.cast_zero, zero_add] at h2
    rw [h2]
    simp [decimal_numeral, h0, hrest, List.map_reverse]

theorem decimal_numeral_digit (n c : Nat) (hc : c ∈ decimal_numeral n) :
    ('0').toNat ≤ c ∧ c ≤ ('9').toNat := by
  have h0 : ('0').toNat = 48 := by decide
  have h9 : ('9').toNat = 57 := by decide
  unfold decimal_numeral at hc
  split at hc
  · simp at hc; omega
  · simp only [List.mem_map, List.mem_reverse] at hc
    obtain ⟨d, hd, rfl⟩ := hc
    have := Nat.digits_lt_base (by decide : 1 < 10) hd
    omega

theorem decimal_numeral_length (n : Nat) (hn : n < 65536) :
    1 ≤ (decimal_numeral n).length ∧ (decimal_numeral n).length ≤ 5 := by
  unfold decimal_numeral
  split
  · simp
  · rename_i h0
    have hd : (Nat.digits 10 n).length ≤ 5 := digits_length_le 5 n (by norm_num; omega)
    have hpos : 0 < n := Nat.pos_of_ne_zero h0
    have : 1 ≤ (Nat.digits 10 n).length := by
      rw [Nat.digits_def' (by decide) hpos]; simp
    simp only [List.length_map, List.length_reverse]
    omega

theorem c_string_terminated (l rest : List Nat) (h : ∀ c ∈ l, c ≠ 0) :
    c_string (l ++ 0 :: rest) = l := by
  unfold c_string
  rw [List.takeWhile_append_of_pos (by simpa using h)]
  simp

theorem uart_send_string_terminated (l rest : List Nat) (h : ∀ c ∈ l, c ≠ 0 ∧ c < 256) :
    Dashboard.uart_send_string (l ++ 0 :: rest) = l := by
  induction l with
  | nil => simp [Dashboard.uart_send_string]
  | cons c t ih =>
    have hc := h c (by simp)
    have ht : ∀ d ∈ t, d ≠ 0 ∧ d < 256 := fun d hd => h d (by simp [hd])
    simp only [List.cons_append, Dashboard.uart_send_string, if_neg hc.1,
      Dashboard.uart_send_char, List.singleton_append, List.append_eq]
    rw [ih ht, Nat.mod_eq_of_lt hc.2]
    simp

theorem int_to_string_length (num : Nat) (str : List Nat) (hnum : num < 65536)
    (hlen : 6 ≤ str.length) : (Dashboard.int_to_string num str).length = str.length := by
  rw [int_to_string_eq num str hnum hlen]
  have := decimal_numeral_length num hnum
  simp only [List.length_append, List.length_cons, List.length_drop]
  omega

theorem uart_send_int_to_string (num : Nat) (str : List Nat) (hnum : num < 65536)
    (hlen : 6 ≤ str.length) :
    Dashboard.uart_send_string (Dashboard.int_to_string num str) = decimal_numeral num := by
  rw [int_to_string_eq num str hnum hlen]
  apply uart_send_string_terminated
  intro c hc
  have := decimal_numeral_digit num c hc
  have h0 : ('0').toNat = 48 := by decide
  have h9 : ('9').toNat = 57 := by decide
  omega

theorem parse_decimal_numeral (n : Nat) : parse_decimal (decimal_numeral n) = n := by
  have h0 : ('0').toNat = 48 := by decide
  unfold decimal_numeral
  split
  · rename_i h; subst h; simp [parse_decimal]
  · unfold parse_decimal
    rw [List.foldl_map, List.foldl_reverse]
    have key : ∀ L : List Nat,
        List.foldr (fun x y => 10 * y + (x + ('0').toNat - ('0').toNat)) 0 L = Nat.ofDigits 10 L := by
      intro L
      induction L with
      | nil => simp
      | cons d t ih => simp only [List.foldr_cons, ih, Nat.ofDigits_cons]; omega
    rw [key, Nat.ofDigits_digits]

theorem parse_decimal_lt (t : List Nat) : ∀ acc : Nat,
    List.foldl (fun acc c => 10 * acc + (c - ('0').toNat)) acc t + 1 ≤ (acc + 1) * 10 ^ t.length
      ∨ ∃ c ∈ t, ¬ (('0').toNat ≤ c ∧ c ≤ ('9').toNat) := by
  have h0 : ('0').toNat = 48 := by decide
  have h9 : ('9').toNat = 57 := by decide
  induction t with
  | nil => intro acc; left; simp
  | cons c t ih =>
    intro acc
    by_cases hc : ('0').toNat ≤ c ∧ c ≤ ('9').toNat
    · rcases ih (10 * acc + (c - ('0').toNat)) with h | ⟨d, hd, hbad⟩
      · left
        simp only [List.foldl_cons, List.length_cons, pow_succ]
        have h2 : (10 * acc + (c - ('0').toNat) + 1) * 10 ^ t.length ≤
            ((acc + 1) * 10) * 10 ^ t.length := Nat.mul_le_mul_right _ (by omega)
        calc _ ≤ _ := h
          _ ≤ _ := h2
          _ = _ := by ring
      · right; exact ⟨d, by simp [hd], hbad⟩
    · right; exact ⟨c, by simp, hc⟩

/-- C6: for every unsigned 16-bit `num` and destination of at least 6 cells,
the string that `int_to_string` writes is never empty, holds decimal digits
only, is `"0"` for zero and has no leading zero otherwise, reads back as `num`,
and no other non-empty digit string that reads as `num` is shorter. -/
theorem int_to_string_roundtrip (num : Nat) (str : List Nat) (hnum : num < 65536)
    (hlen : 6 ≤ str.length) :
    c_string (Dashboard.int_to_string num str) ≠ [] ∧
    (∀ c ∈ c_string (Dashboard.int_to_string num str), ('0').toNat ≤ c ∧ c ≤ ('9').toNat) ∧
    (num = 0 → c_string (Dashboard.int_to_string num str) = [('0').toNat]) ∧
    (num ≠ 0 → (c_string (Dashboard.int_to_string num str)).head? ≠ some ('0').toNat) ∧
    parse_decimal (c_string (Dashboard.int_to_string num str)) = num ∧
    (∀ t : List Nat, t ≠ [] → (∀ c ∈ t, ('0').toNat ≤ c ∧ c ≤ ('9').toNat) →
      parse_decimal t = num → (c_string (Dashboard.int_to_string num str)).length ≤ t.length) := by
  have h0 : ('0').toNat = 48 := by decide
  have h9 : ('9').toNat = 57 := by decide
  have hs : c_string (Dashboard.int_to_string num str) = decimal_numeral num := by
    rw [int_to_string_eq num str hnum hlen]
    apply c_string_terminated
    intro c hc
    have := decimal_numeral_digit num c hc
    omega
  rw [hs]
  have hl := decimal_numeral_length num hnum
  refine ⟨?_, decimal_numeral_digit num, ?_, ?_, parse_decimal_numeral num, ?_⟩
  · intro h; rw [h] at hl; simp at hl
  · intro h; simp [decimal_numeral, h]
  · intro hne
    unfold decimal_numeral
    rw [if_neg hne]
    have hnil : Nat.digits 10 num ≠ [] := Nat.digits_ne_nil_iff_ne_zero.mpr hne
    have hlast := Nat.getLast_digit_ne_zero 10 hne
    rw [List.head?_map, List.head?_reverse, List.getLast?_eq_getLast _ hnil]
    simp only [Option.map_some', ne_eq, Option.some.injEq]
    omega
  · intro t htne hdig hparse
    by_cases hne : num = 0
    · have : 1 ≤ t.length := by
        cases t with
        | nil => exact absurd rfl htne
        | cons a t => simp
      simp [decimal_numeral, hne]
      exact this
    · by_contra hlt
      push_neg at hlt
      have hlen2 : (decimal_numeral num).length = (Nat.digits 10 num).length := by
        simp [decimal_numeral, hne]
      rw [hlen2] at hlt
      have hb := Nat.base_pow_length_digits_le 10 num (by decide) hne
      rcases parse_decimal_lt t 0 with hp | ⟨c, hc, hbad⟩
      · have hp2 : num + 1 ≤ 10 ^ t.length := by
          have : parse_decimal t + 1 ≤ (0 + 1) * 10 ^ t.length := hp
          rw [hparse] at this
          simpa using this
        have hpow : 10 ^ (t.length + 1) ≤ 10 ^ (Nat.digits 10 num).length :=
          Nat.pow_le_pow_right (by decide) hlt
        rw [pow_succ] at hpow
        omega
      · exact hbad (hdig c hc)

theorem int_to_string_roundtrip_witness :
    c_string (Dashboard.int_to_string (237 : Nat) [7, 7, 7, 7, 7, 7]) ≠ [] ∧
    (∀ c ∈ c_string (Dashboard.int_to_string (237 : Nat) [7, 7, 7, 7, 7, 7]),
      ('0').toNat ≤ c ∧ c ≤ ('9').toNat) ∧
    ((237 : Nat) = 0 →
      c_string (Dashboard.int_to_string (237 : Nat) [7, 7, 7, 7, 7, 7]) = [('0').toNat]) ∧
    ((237 : Nat) ≠ 0 →
      (c_string (Dashboard.int_to_string (237 : Nat) [7, 7, 7, 7, 7, 7])).head? ≠
        some ('0').toNat) ∧
    parse_decimal (c_string (Dashboard.int_to_string (237 : Nat) [7, 7, 7, 7, 7, 7])) = 237 ∧
    (∀ t : List Nat, t ≠ [] → (∀ c ∈ t, ('0').toNat ≤ c ∧ c ≤ ('9').toNat) →
      parse_decimal t = 237 →
      (c_string (Dashboard.int_to_string (237 : Nat) [7, 7, 7, 7, 7, 7])).length ≤ t.length) :=
  int_to_string_roundtrip 237 [7, 7, 7, 7, 7, 7] (by decide) (by decide)

theorem uart_send_cstr (s : String) (h : ∀ c ∈ chars s, c ≠ 0 ∧ c < 256) :
    Dashboard.uart_send_string (Dashboard.cstr s) = chars s := by
  unfold Dashboard.cstr
  exact uart_send_string_terminated (chars s) [] h

/-- C7: for every tamper flag and every 16-bit voltage, current, temp, light
and mag, whatever the local buffer holds on entry, the characters that
`send_sensor_data` sends are the six keys in their fixed order with the decimal
numerals of the five values and the flag as `1` or `0`, closed by `}` CR LF;
for `(false, 237, 95, 48, 189, 112)` that is the record of the specification. -/
theorem send_sensor_data_record (tampered : Bool) (voltage current temp light mag : Nat)
    (buffer : List Nat) (hV : voltage < 65536) (hI : current < 65536) (hT : temp < 65536)
    (hL : light < 65536) (hM : mag < 65536) (hbuf : buffer.length = 16) :
    Dashboard.send_sensor_data tampered voltage current temp light mag buffer =
        chars "\x7b\"voltage\":" ++ decimal_numeral voltage ++
        chars ",\"current\":" ++ decimal_numeral current ++
        chars ",\"temperature\":" ++ decimal_numeral temp ++
        chars ",\"lightIntensity\":" ++ decimal_numeral light ++
        chars ",\"magneticField\":" ++ decimal_numeral mag ++
        chars ",\"tamperFlag\":" ++ [if tampered then ('1').toNat else ('0').toNat] ++
        chars "\x7d\r\n" ∧
    Dashboard.send_sensor_data false 237 95 48 189 112 buffer =
        chars ("\x7b\"voltage\":237,\"current\":95,\"temperature\":48," ++
          "\"lightIntensity\":189,\"magneticField\":112,\"tamperFlag\":0\x7d\r\n") := by
  have gen : ∀ (tampered : Bool) (voltage current temp light mag : Nat),
      voltage < 65536 → current < 65536 → temp < 65536 → light < 65536 → mag < 65536 →
      Dashboard.send_sensor_data tampered voltage current temp light mag buffer =
        chars "\x7b\"voltage\":" ++ decimal_numeral voltage ++
        chars ",\"current\":" ++ decimal_numeral current ++
        chars ",\"temperature\":" ++ decimal_numeral temp ++
        chars ",\"lightIntensity\":" ++ decimal_numeral light ++
        chars ",\"magneticField\":" ++ decimal_numeral mag ++
        chars ",\"tamperFlag\":" ++ [if tampered then ('1').toNat else ('0').toNat] ++
        chars "\x7d\r\n" := by
    intro tampered voltage current temp light mag hV hI hT hL hM
    have l1 : 6 ≤ buffer.length := by omega
    have l2 := int_to_string_length voltage buffer hV l1
    have l3 := int_to_string_length current _ hI (l2 ▸ l1)
    have l4 := int_to_string_length temp _ hT (l3 ▸ l2 ▸ l1)
    have l5 := int_to_string_length light _ hL (l4 ▸ l3 ▸ l2 ▸ l1)
    unfold Dashboard.send_sensor_data
    simp only []
    rw [uart_send_int_to_string voltage buffer hV l1,
      uart_send_int_to_string current _ hI (by omega),
      uart_send_int_to_string temp _ hT (by omega),
      uart_send_int_to_string light _ hL (by omega),
      uart_send_int_to_string mag _ hM (by omega),
      uart_send_cstr _ (by decide), uart_send_cstr _ (by decide), uart_send_cstr _ (by decide),
      uart_send_cstr _ (by decide), uart_send_cstr _ (by decide), uart_send_cstr _ (by decide),
      uart_send_cstr _ (by decide)]
    cases tampered <;> simp [Dashboard.uart_send_char]
  refine ⟨gen tampered voltage current temp light mag hV hI hT hL hM, ?_⟩
  have h := gen false 237 95 48 189 112 (by decide) (by decide) (by decide) (by decide)
    (by decide)
  simp only [Nat.cast_ofNat] at h
  rw [h]
  simp [decimal_numeral, chars]

theorem send_sensor_data_record_witness :
    Dashboard.send_sensor_data true (230 : Nat) (150 : Nat) (60 : Nat) (0 : Nat) (65535 : Nat)
        (List.replicate 16 0) =
      chars "\x7b\"voltage\":" ++ decimal_numeral 230 ++
      chars ",\"current\":" ++ decimal_numeral 150 ++
      chars ",\"temperature\":" ++ decimal_numeral 60 ++
      chars ",\"lightIntensity\":" ++ decimal_numeral 0 ++
      chars ",\"magneticField\":" ++ decimal_numeral 65535 ++
      chars ",\"tamperFlag\":" ++ [if true then ('1').toNat else ('0').toNat] ++
      chars "\x7d\r\n" ∧
    Dashboard.send_sensor_data false 237 95 48 189 112 (List.replicate 16 0) =
      chars ("\x7b\"voltage\":237,\"current\":95,\"temperature\":48," ++
        "\"lightIntensity\":189,\"magneticField\":112,\"tamperFlag\":0\x7d\r\n") :=
  send_sensor_data_record true 230 150 60 0 65535 (List.replicate 16 0) (by decide) (by decide)
    (by decide) (by decide) (by decide) (by decide)

/-! ## Time management -/

/-- C8, as stated, fails: from minute 50 and hour 1, adding 75 minutes gives
minute 5 and hour 3, not hour 2. -/
theorem datetime_add_75_hour_plus_one_fails :
    (⟨10, 1, 2026, 1, 50, 0⟩ : Dashboard.DateTime).minute = 50 ∧
    Dashboard.datetime_add_minutes ⟨10, 1, 2026, 1, 50, 0⟩ 75 = ⟨10, 1, 2026, 3, 5, 0⟩ ∧
    ¬ ((Dashboard.datetime_add_minutes ⟨10, 1, 2026, 1, 50, 0⟩ 75).minute = 5 ∧
       (Dashboard.datetime_add_minutes ⟨10, 1, 2026, 1, 50, 0⟩ 75).hour = 1 + 1) := by
  decide

/-- C8, amended: for every `DateTime` whose minute is 50 and whose hour is at
most 21 (no day carry), `datetime_add_minutes(dt, 75)` leaves minute 5, the hour
increased by exactly 2, and the day unchanged. -/
theorem datetime_add_75_from_minute_50 (dt : Dashboard.DateTime) (hmin : dt.minute = 50)
    (hhour : dt.hour + 2 < 24) :
    (Dashboard.datetime_add_minutes dt 75).minute = 5 ∧
    (Dashboard.datetime_add_minutes dt 75).hour = dt.hour + 2 ∧
    (Dashboard.datetime_add_minutes dt 75).day = dt.day := by
  have h75 : toU8 75 = 75 := by decide
  unfold Dashboard.datetime_add_minutes
  simp only [h75, hmin]
  have e : (dt.hour + (50 + 75) % 256 / 60) % 256 = dt.hour + 2 := by omega
  simp only [e]
  rw [if_pos (by decide), if_neg (by omega)]
  exact ⟨rfl, rfl, rfl⟩

theorem datetime_add_75_from_minute_50_witness :
    (Dashboard.datetime_add_minutes ⟨10, 1, 2026, 1, 50, 0⟩ 75).minute = 5 ∧
    (Dashboard.datetime_add_minutes ⟨10, 1, 2026, 1, 50, 0⟩ 75).hour =
      (⟨10, 1, 2026, 1, 50, 0⟩ : Dashboard.DateTime).hour + 2 ∧
    (Dashboard.datetime_add_minutes ⟨10, 1, 2026, 1, 50, 0⟩ 75).day =
      (⟨10, 1, 2026, 1, 50, 0⟩ : Dashboard.DateTime).day :=
  datetime_add_75_from_minute_50 ⟨10, 1, 2026, 1, 50, 0⟩ (by decide) (by decide)

/-- C9, as stated, fails: with hour 23, minute 0 and day 255, adding 120
minutes leaves hour 1 but the 8-bit day wraps to 0 instead of growing by 1. -/
theorem datetime_day_carry_wraps_at_255 :
    (⟨255, 1, 2026, 23, 0, 0⟩ : Dashboard.DateTime).hour = 23 ∧
    (⟨255, 1, 2026, 23, 0, 0⟩ : Dashboard.DateTime).minute < 60 ∧
    120 ≤ (⟨255, 1, 2026, 23, 0, 0⟩ : Dashboard.DateTime).minute + 120 ∧
    (⟨255, 1, 2026, 23, 0, 0⟩ : Dashboard.DateTime).minute + 120 < 180 ∧
    Dashboard.datetime_add_minutes ⟨255, 1, 2026, 23, 0, 0⟩ 120 = ⟨0, 1, 2026, 1, 0, 0⟩ ∧
    (Dashboard.datetime_add_minutes ⟨255, 1, 2026, 23, 0, 0⟩ 120).day ≠
      (⟨255, 1, 2026, 23, 0, 0⟩ : Dashboard.DateTime).day + 1 := by
  decide

/-- C9, amended: for every `DateTime` with hour 23, minute below 60 and day
below 255, and every `minutes` with `120 ≤ minute + minutes < 180`,
`datetime_add_minutes` leaves hour 1 and the day increased by exactly 1; and
whenever the hour is 24 or more after the minute carry, the stored hour is its
remainder modulo 24, below 24, and its quotient by 24 is added to the day in
8-bit arithmetic. -/
theorem datetime_add_minutes_day_carry (dt : Dashboard.DateTime) (minutes : Nat) :
    (dt.hour = 23 → dt.minute < 60 → dt.day < 255 →
      120 ≤ dt.minute + minutes → dt.minute + minutes < 180 →
      (Dashboard.datetime_add_minutes dt minutes).hour = 1 ∧
      (Dashboard.datetime_add_minutes dt minutes).day = dt.day + 1) ∧
    (60 ≤ (dt.minute + minutes % 256) % 256 →
      24 ≤ (dt.hour + (dt.minute + minutes % 256) % 256 / 60) % 256 →
      (Dashboard.datetime_add_minutes dt minutes).hour < 24 ∧
      (Dashboard.datetime_add_minutes dt minutes).hour =
        (dt.hour + (dt.minute + minutes % 256) % 256 / 60) % 256 % 24 ∧
      (Dashboard.datetime_add_minutes dt minutes).day =
        (dt.day + (dt.hour + (dt.minute + minutes % 256) % 256 / 60) % 256 / 24) % 256) := by
  constructor
  · intro hh hm hd h1 h2
    unfold Dashboard.datetime_add_minutes
    simp only [toU8_natCast, hh]
    have hmin : (dt.minute + minutes % 256) % 256 = dt.minute + minutes := by omega
    have e : (23 + (dt.minute + minutes) / 60) % 256 = 25 := by omega
    simp only [hmin, e]
    rw [if_pos (by omega), if_pos (by decide)]
    refine ⟨rfl, ?_⟩
    show (dt.day + 25 / 24) % 256 = dt.day + 1
    omega
  · intro h1 h2
    unfold Dashboard.datetime_add_minutes
    simp only [toU8_natCast]
    rw [if_pos h1, if_pos h2]
    exact ⟨Nat.mod_lt _ (by decide), rfl, rfl⟩

theorem datetime_add_minutes_day_carry_witness :
    ((Dashboard.datetime_add_minutes ⟨10, 1, 2026, 23, 55, 0⟩ (70 : Nat)).hour = 1 ∧
      (Dashboard.datetime_add_minutes ⟨10, 1, 2026, 23, 55, 0⟩ (70 : Nat)).day = 10 + 1) ∧
    ((Dashboard.datetime_add_minutes ⟨10, 1, 2026, 23, 55, 0⟩ (70 : Nat)).hour < 24 ∧
      (Dashboard.datetime_add_minutes ⟨10, 1, 2026, 23, 55, 0⟩ (70 : Nat)).hour =
        (23 + (55 + 70 % 256) % 256 / 60) % 256 % 24 ∧
      (Dashboard.datetime_add_minutes ⟨10, 1, 2026, 23, 55, 0⟩ (70 : Nat)).day =
        (10 + (23 + (55 + 70 % 256) % 256 / 60) % 256 / 24) % 256) :=
  ⟨(datetime_add_minutes_day_carry ⟨10, 1, 2026, 23, 55, 0⟩ 70).1 (by decide) (by decide)
      (by decide) (by decide) (by decide),
   (datetime_add_minutes_day_carry ⟨10, 1, 2026, 23, 55, 0⟩ 70).2 (by decide) (by decide)⟩

/-- C10: for every `DateTime` and every `minutes`, `datetime_add_minutes`
leaves the month, year and second fields unchanged. -/
theorem datetime_add_minutes_frame (dt : Dashboard.DateTime) (minutes : Int) :
    (Dashboard.datetime_add_minutes dt minutes).month = dt.month ∧
    (Dashboard.datetime_add_minutes dt minutes).year = dt.year ∧
    (Dashboard.datetime_add_minutes dt minutes).second = dt.second := by
  unfold Dashboard.datetime_add_minutes
  simp only []
  split_ifs <;> exact ⟨rfl, rfl, rfl⟩

/-! ## Filled circle -/

theorem int_range_succ (a : Int) (n : Nat) : int_range a (n + 1) = a :: int_range (a + 1) n := by
  unfold int_range
  rw [List.range_succ_eq_map, List.map_cons, List.map_map]
  simp only [Nat.cast_zero, add_zero, List.cons.injEq, true_and]
  apply List.map_congr_left
  intro i _
  simp only [Function.comp, Nat.succ_eq_add_one, Nat.cast_add, Nat.cast_one]
  omega

theorem mem_int_range (a v : Int) (n : Nat) : v ∈ int_range a n ↔ a ≤ v ∧ v < a + n := by
  unfold int_range
  simp only [List.mem_map, List.mem_range]
  constructor
  · rintro ⟨i, hi, rfl⟩; omega
  · intro h; exact ⟨(v - a).toNat, by omega, by omega⟩

theorem nodup_int_range (a : Int) (n : Nat) : (int_range a n).Nodup := by
  unfold int_range
  apply List.Nodup.map _ (List.nodup_range n)
  intro i j h
  simp only at h
  omega

theorem toI16_of_range (v : Int) (h1 : -32768 ≤ v) (h2 : v < 32768) : toI16 v = v := by
  unfold toI16; omega

theorem fill_circle_row_eq {α : Type} (plot : Int → Int → List α) (cx cy r y : Int)
    (hr : r < 32767) (k : Nat) : ∀ (x : Int) (fuel : Nat), -32768 ≤ x → x + k = r + 1 → k < fuel →
    Face.fill_circle_row plot cx cy r y fuel x =
      some ((int_range x k).flatMap fun x =>
        if toI32 (x * x + y * y) ≤ r * r then plot (cx + x) (cy + y) else []) := by
  induction k with
  | zero =>
    intro x fuel hx hk hf
    obtain ⟨f, rfl⟩ : ∃ f, fuel = f + 1 := ⟨fuel - 1, by omega⟩
    rw [Face.fill_circle_row, if_neg (by omega)]
    simp [int_range]
  | succ k ih =>
    intro x fuel hx hk hf
    obtain ⟨f, rfl⟩ : ∃ f, fuel = f + 1 := ⟨fuel - 1, by omega⟩
    rw [Face.fill_circle_row, if_pos (by omega), toI16_of_range (x + 1) (by omega) (by omega),
      ih (x + 1) f (by omega) (by push_cast at hk; omega) (by omega), int_range_succ]
    simp

theorem fill_circle_rows_eq {α : Type} (plot : Int → Int → List α) (cx cy r : Int)
    (hr0 : 0 ≤ r) (hr : r < 32767) (fuel : Nat) (hfuel : 2 * r + 1 < fuel) (k : Nat) :
    ∀ (y : Int) (n : Nat), -32768 ≤ y → y + k = r + 1 → k < n →
    Face.fill_circle_rows plot cx cy r fuel n y =
      some ((int_range y k).flatMap fun y =>
        (int_range (-r) (2 * r + 1).toNat).flatMap fun x =>
          if toI32 (x * x + y * y) ≤ r * r then plot (cx + x) (cy + y) else []) := by
  induction k with
  | zero =>
    intro y n hy hk hn
    obtain ⟨m, rfl⟩ : ∃ m, n = m + 1 := ⟨n - 1, by omega⟩
    rw [Face.fill_circle_rows, if_neg (by omega)]
    simp [int_range]
  | succ k ih =>
    intro y n hy hk hn
    obtain ⟨m, rfl⟩ : ∃ m, n = m + 1 := ⟨n - 1, by omega⟩
    rw [Face.fill_circle_rows, if_pos (by omega), toI16_of_range (y + 1) (by omega) (by omega),
      toI16_of_range (-r) (by omega) (by omega),
      ih (y + 1) m (by omega) (by push_cast at hk; omega) (by omega),
      fill_circle_row_eq plot cx cy r y hr (2 * r + 1).toNat (-r) fuel (by omega) (by omega)
        (by omega),
      int_range_succ]
    simp

theorem flatMap_ite_eq_filter {α β : Type} (l : List α) (c : α → Prop) [DecidablePred c]
    (f : α → List β) :
    (l.flatMap fun x => if c x then f x else []) = (l.filter fun x => c x).flatMap f := by
  induction l with
  | nil => rfl
  | cons a t ih =>
    simp only [List.flatMap_cons, List.filter_cons, ih]
    by_cases h : c a <;> simp [h]

theorem toI32_sum_squares (r x y : Int) (hr : r < 32767) (hx1 : -r ≤ x) (hx2 : x ≤ r)
    (hy1 : -r ≤ y) (hy2 : y ≤ r) : toI32 (x * x + y * y) = x * x + y * y := by
  have hx : x * x ≤ 32766 * 32766 := by nlinarith
  have hy : y * y ≤ 32766 * 32766 := by nlinarith
  have hx0 : 0 ≤ x * x := mul_self_nonneg x
  have hy0 : 0 ≤ y * y := mul_self_nonneg y
  unfold toI32
  omega

theorem fill_circle_with_eq {α : Type} (plot : Int → Int → List α) (fuel : Nat)
    (cx cy r : Int) (hcx : -32768 ≤ cx ∧ cx < 32768) (hcy : -32768 ≤ cy ∧ cy < 32768)
    (hr : 0 ≤ r ∧ r < 32767) (hfuel : 2 * r + 1 < fuel) :
    Face.fill_circle_with plot fuel cx cy r =
      some ((disk_offsets r).flatMap fun d => plot (cx + d.1) (cy + d.2)) := by
  unfold Face.fill_circle_with
  simp only [toI16_of_range cx hcx.1 hcx.2, toI16_of_range cy hcy.1 hcy.2,
    toI16_of_range r (by omega) (by omega), toI16_of_range (-r) (by omega) (by omega)]
  rw [fill_circle_rows_eq plot cx cy r hr.1 hr.2 fuel hfuel (2 * r + 1).toNat (-r) fuel
    (by omega) (by omega) (by omega)]
  congr 1
  unfold disk_offsets
  rw [List.flatMap_assoc]
  apply List.flatMap_congr
  intro y hy
  rw [mem_int_range] at hy
  rw [List.flatMap_map, ← flatMap_ite_eq_filter]
  apply List.flatMap_congr
  intro x hx
  rw [mem_int_range] at hx
  rw [toI32_sum_squares r x y hr.2 (by omega) (by omega) (by omega) (by omega)]

theorem mem_disk_offsets (r : Int) (hr : 0 ≤ r) (d : Int × Int) :
    d ∈ disk_offsets r ↔
      -r ≤ d.1 ∧ d.1 ≤ r ∧ -r ≤ d.2 ∧ d.2 ≤ r ∧ d.1 * d.1 + d.2 * d.2 ≤ r * r := by
  obtain ⟨dx, dy⟩ := d
  unfold disk_offsets
  simp only [List.mem_flatMap, List.mem_map, List.mem_filter, mem_int_range, decide_eq_true_eq,
    Prod.mk.injEq]
  constructor
  · rintro ⟨y, hy, x, ⟨hx, hc⟩, rfl, rfl⟩
    refine ⟨by omega, by omega, by omega, by omega, hc⟩
  · rintro ⟨h1, h2, h3, h4, h5⟩
    exact ⟨dy, by omega, dx, ⟨by omega, h5⟩, rfl, rfl⟩

theorem nodup_disk_offsets (r : Int) : (disk_offsets r).Nodup := by
  unfold disk_offsets
  rw [List.nodup_flatMap]
  constructor
  · intro y _
    apply List.Nodup.map
    · intro a b h
      exact (Prod.mk.injEq _ _ _ _ ▸ h).1
    · exact List.Nodup.filter _ (nodup_int_range _ _)
  · apply List.Pairwise.imp _ (nodup_int_range (-r) (2 * r + 1).toNat)
    intro a b hab
    simp only [Function.onFun]
    intro d hd1 hd2
    simp only [List.mem_map] at hd1 hd2
    obtain ⟨_, _, rfl⟩ := hd1
    obtain ⟨_, _, h⟩ := hd2
    exact hab (Prod.mk.injEq _ _ _ _ ▸ h).2.symm

theorem face_draw_pixel_eq (a b : Int) (color : Nat) (hc : color < 65536) :
    Face.lcd_draw_pixel a b color =
      if toU16 a < Face.LCD_W ∧ toU16 b < Face.LCD_H then
        Face.lcd_set_window (toU16 a) (toU16 b) (toU16 a) (toU16 b) ++
          [Event.dc true, Event.tx (color >>> 8), Event.tx (color &&& 0xFF)]
      else [] := by
  unfold Face.lcd_draw_pixel
  simp only [toU16_of_lt color hc]
  by_cases h : toU16 a < Face.LCD_W ∧ toU16 b < Face.LCD_H
  · rw [if_pos h, if_neg (by omega)]
    simp [spi_tx, hi_byte_mod color hc, lo_byte_mod]
  · rw [if_neg h, if_pos (by omega)]

theorem draw_pixel_calls_eq_panel_pixels (calls : List (Int × Int)) (color : Nat)
    (hc : color < 65536) :
    (calls.flatMap fun p => Face.lcd_draw_pixel p.1 p.2 color) =
      (Face.panel_pixels calls).flatMap fun q =>
        Face.lcd_set_window q.1 q.2 q.1 q.2 ++
          [Event.dc true, Event.tx (color >>> 8), Event.tx (color &&& 0xFF)] := by
  unfold Face.panel_pixels
  induction calls with
  | nil => rfl
  | cons p t ih =>
    simp only [List.flatMap_cons, List.map_cons, List.filter_cons, ih,
      face_draw_pixel_eq p.1 p.2 color hc]
    by_cases h : toU16 p.1 < Face.LCD_W ∧ toU16 p.2 < Face.LCD_H <;> simp [h]

/-- What `lcd_fill_circle` does for a radius below 32767: the calls it makes,
its bus events, and the pixels that reach the panel. -/
theorem fill_circle_spec (cx cy r : Int) (color fuel : Nat)
    (hcx : -32768 ≤ cx ∧ cx < 32768) (hcy : -32768 ≤ cy ∧ cy < 32768)
    (hr : 0 ≤ r ∧ r < 32767) (hcol : color < 65536) (hfuel : 2 * r + 1 < fuel) :
    ∃ calls : List (Int × Int),
      Face.lcd_fill_circle_calls fuel cx cy r = some calls ∧
      Face.lcd_fill_circle fuel cx cy r color =
        some (calls.flatMap fun p => Face.lcd_draw_pixel p.1 p.2 color) ∧
      calls.Nodup ∧
      (∀ p : Int × Int, p ∈ calls ↔
        ∃ dx dy : Int, -r ≤ dx ∧ dx ≤ r ∧ -r ≤ dy ∧ dy ≤ r ∧ dx * dx + dy * dy ≤ r * r ∧
          p = (cx + dx, cy + dy)) ∧
      Face.lcd_fill_circle fuel cx cy r color =
        some ((Face.panel_pixels calls).flatMap fun q =>
          Face.lcd_set_window q.1 q.2 q.1 q.2 ++
            [Event.dc true, Event.tx (color >>> 8), Event.tx (color &&& 0xFF)]) ∧
      (∀ q : Nat × Nat, q ∈ Face.panel_pixels calls ↔
        q.1 < 176 ∧ q.2 < 220 ∧
        ∃ dx dy : Int, -r ≤ dx ∧ dx ≤ r ∧ -r ≤ dy ∧ dy ≤ r ∧ dx * dx + dy * dy ≤ r * r ∧
          q = (toU16 (cx + dx), toU16 (cy + dy))) := by
  refine ⟨(disk_offsets r).map fun d => (cx + d.1, cy + d.2), ?_, ?_, ?_, ?_, ?_, ?_⟩
  · unfold Face.lcd_fill_circle_calls
    rw [fill_circle_with_eq _ fuel cx cy r hcx hcy hr hfuel, List.map_eq_flatMap]
  · unfold Face.lcd_fill_circle
    rw [fill_circle_with_eq _ fuel cx cy r hcx hcy hr hfuel, List.flatMap_map]
  · apply List.Nodup.map _ (nodup_disk_offsets r)
    intro a b h
    simp only [Prod.mk.injEq] at h
    apply Prod.ext <;> omega
  · intro p
    simp only [List.mem_map, mem_disk_offsets r hr.1]
    constructor
    · rintro ⟨d, ⟨h1, h2, h3, h4, h5⟩, rfl⟩
      exact ⟨d.1, d.2, h1, h2, h3, h4, h5, rfl⟩
    · rintro ⟨dx, dy, h1, h2, h3, h4, h5, rfl⟩
      exact ⟨(dx, dy), ⟨h1, h2, h3, h4, h5⟩, rfl⟩
  · unfold Face.lcd_fill_circle
    rw [fill_circle_with_eq _ fuel cx cy r hcx hcy hr hfuel,
      ← draw_pixel_calls_eq_panel_pixels _ color hcol, List.flatMap_map]
  · intro q
    unfold Face.panel_pixels
    simp only [List.mem_filter, List.mem_map, mem_disk_offsets r hr.1, decide_eq_true_eq,
      Face.LCD_W, Face.LCD_H]
    constructor
    · rintro ⟨⟨p, ⟨d, ⟨h1, h2, h3, h4, h5⟩, rfl⟩, rfl⟩, hq1, hq2⟩
      exact ⟨hq1, hq2, d.1, d.2, h1, h2, h3, h4, h5, rfl⟩
    · rintro ⟨hq1, hq2, dx, dy, h1, h2, h3, h4, h5, rfl⟩
      exact ⟨⟨_, ⟨(dx, dy), ⟨h1, h2, h3, h4, h5⟩, rfl⟩, rfl⟩, hq1, hq2⟩

/-- C4, as stated, fails: `lcd_fill_circle(-32768, 0, 32766, color)` calls
`lcd_draw_pixel(-65534, 0, color)`, which receives `(2, 0)` in its `uint16_t`
parameters and writes that panel pixel, although no point of the disk has
column 2. -/
theorem lcd_fill_circle_wraps_into_panel :
    ∃ calls : List (Int × Int),
      Face.lcd_fill_circle_calls 65534 (-32768) 0 32766 = some calls ∧
      ((-65534, 0) : Int × Int) ∈ calls ∧
      Face.lcd_draw_pixel (-65534) 0 0xFFE0 =
        Face.lcd_set_window 2 0 2 0 ++ [Event.dc true, Event.tx 0xFF, Event.tx 0xE0] ∧
      ((2, 0) : Nat × Nat) ∈ Face.panel_pixels calls ∧
      ¬ ∃ dx dy : Int, -32766 ≤ dx ∧ dx ≤ 32766 ∧ -32766 ≤ dy ∧ dy ≤ 32766 ∧
          dx * dx + dy * dy ≤ 32766 * 32766 ∧
          (((2 : Nat) : Int), ((0 : Nat) : Int)) = (-32768 + dx, 0 + dy) := by
  obtain ⟨calls, h1, _, _, h4, _, h6⟩ := fill_circle_spec (-32768) 0 32766 0 65534
    (by decide) (by decide) (by decide) (by decide) (by decide)
  refine ⟨calls, h1, (h4 (-65534, 0)).mpr ⟨-32766, 0, by decide, by decide, by decide,
    by decide, by decide, by decide⟩, by decide,
    (h6 (2, 0)).mpr ⟨by decide, by decide, -32766, 0, by decide, by decide,
    by decide, by decide, by decide, by decide⟩, ?_⟩
  rintro ⟨dx, dy, _, h2, _, _, _, h⟩
  simp only [Prod.mk.injEq] at h
  omega

/-- C4, amended: for every centre and every radius `0 ≤ r < 32767` (fuel above
`2r + 1`), `lcd_fill_circle` terminates and calls `lcd_draw_pixel` exactly once
for each point `(cx+dx, cy+dy)` with `|dx|, |dy| ≤ r` and `dx² + dy² ≤ r²`, and
for no other point; its bus events are one window and one colour per pixel
written; the pixels written are the points, converted to `uint16_t`, that pass
the bounds check; they are the disk restricted to the 176x220 panel whenever
`cx - r ≥ -65360` and `cy - r ≥ -65316`, and the whole disk when it lies inside
the panel. -/
theorem lcd_fill_circle_pixels (cx cy r : Int) (color fuel : Nat)
    (hcx : -32768 ≤ cx ∧ cx < 32768) (hcy : -32768 ≤ cy ∧ cy < 32768)
    (hr : 0 ≤ r ∧ r < 32767) (hcol : color < 65536) (hfuel : 2 * r + 1 < fuel) :
    ∃ calls : List (Int × Int),
      Face.lcd_fill_circle_calls fuel cx cy r = some calls ∧
      Face.lcd_fill_circle fuel cx cy r color =
        some (calls.flatMap fun p => Face.lcd_draw_pixel p.1 p.2 color) ∧
      calls.Nodup ∧
      (∀ p : Int × Int, p ∈ calls ↔
        ∃ dx dy : Int, -r ≤ dx ∧ dx ≤ r ∧ -r ≤ dy ∧ dy ≤ r ∧ dx * dx + dy * dy ≤ r * r ∧
          p = (cx + dx, cy + dy)) ∧
      Face.lcd_fill_circle fuel cx cy r color =
        some ((Face.panel_pixels calls).flatMap fun q =>
          Face.lcd_set_window q.1 q.2 q.1 q.2 ++
            [Event.dc true, Event.tx (color >>> 8), Event.tx (color &&& 0xFF)]) ∧
      (∀ q : Nat × Nat, q ∈ Face.panel_pixels calls ↔
        q.1 < 176 ∧ q.2 < 220 ∧
        ∃ dx dy : Int, -r ≤ dx ∧ dx ≤ r ∧ -r ≤ dy ∧ dy ≤ r ∧ dx * dx + dy * dy ≤ r * r ∧
          q = (toU16 (cx + dx), toU16 (cy + dy))) ∧
      (-65360 ≤ cx - r → -65316 ≤ cy - r →
        ∀ q : Nat × Nat, q ∈ Face.panel_pixels calls ↔
          q.1 < 176 ∧ q.2 < 220 ∧
          ∃ dx dy : Int, -r ≤ dx ∧ dx ≤ r ∧ -r ≤ dy ∧ dy ≤ r ∧ dx * dx + dy * dy ≤ r * r ∧
            ((q.1 : Int), (q.2 : Int)) = (cx + dx, cy + dy)) ∧
      (0 ≤ cx - r → cx + r < 176 → 0 ≤ cy - r → cy + r < 220 →
        ∀ q : Nat × Nat, q ∈ Face.panel_pixels calls ↔
          ∃ dx dy : Int, -r ≤ dx ∧ dx ≤ r ∧ -r ≤ dy ∧ dy ≤ r ∧ dx * dx + dy * dy ≤ r * r ∧
            ((q.1 : Int), (q.2 : Int)) = (cx + dx, cy + dy)) := by
  obtain ⟨calls, h1, h2, h3, h4, h5, h6⟩ := fill_circle_spec cx cy r color fuel hcx hcy hr hcol hfuel
  refine ⟨calls, h1, h2, h3, h4, h5, h6, ?_, ?_⟩
  · intro hwx hwy q
    rw [h6 q]
    constructor
    · rintro ⟨hq1, hq2, dx, dy, a1, a2, a3, a4, a5, e⟩
      refine ⟨hq1, hq2, dx, dy, a1, a2, a3, a4, a5, ?_⟩
      have e1 := congrArg Prod.fst e
      have e2 := congrArg Prod.snd e
      simp only at e1 e2
      rw [e1] at hq1
      rw [e2] at hq2
      rw [e1, e2]
      unfold toU16 at hq1 hq2 ⊢
      apply Prod.ext <;> simp only <;> omega
    · rintro ⟨hq1, hq2, dx, dy, a1, a2, a3, a4, a5, e⟩
      refine ⟨hq1, hq2, dx, dy, a1, a2, a3, a4, a5, ?_⟩
      simp only [Prod.mk.injEq] at e
      apply Prod.ext <;> simp only <;> unfold toU16 <;> omega
  · intro i1 i2 i3 i4 q
    rw [h6 q]
    constructor
    · rintro ⟨hq1, hq2, dx, dy, a1, a2, a3, a4, a5, e⟩
      refine ⟨dx, dy, a1, a2, a3, a4, a5, ?_⟩
      have e1 := congrArg Prod.fst e
      have e2 := congrArg Prod.snd e
      simp only at e1 e2
      rw [e1, e2]
      unfold toU16
      apply Prod.ext <;> simp only <;> omega
    · rintro ⟨dx, dy, a1, a2, a3, a4, a5, e⟩
      simp only [Prod.mk.injEq] at e
      refine ⟨by omega, by omega, dx, dy, a1, a2, a3, a4, a5, ?_⟩
      apply Prod.ext <;> simp only <;> unfold toU16 <;> omega

theorem lcd_fill_circle_pixels_witness :
    Face.lcd_fill_circle_calls 4 5 5 1 = some [(5, 4), (4, 5), (5, 5), (6, 5), (5, 6)] ∧
    ∃ calls : List (Int × Int),
      Face.lcd_fill_circle_calls 4 5 5 1 = some calls ∧
      Face.lcd_fill_circle 4 5 5 1 (0xFFE0 : Nat) =
        some (calls.flatMap fun p => Face.lcd_draw_pixel p.1 p.2 (0xFFE0 : Nat)) ∧
      calls.Nodup ∧
      (∀ q : Nat × Nat, q ∈ Face.panel_pixels calls ↔
        ∃ dx dy : Int, -1 ≤ dx ∧ dx ≤ 1 ∧ -1 ≤ dy ∧ dy ≤ 1 ∧ dx * dx + dy * dy ≤ 1 * 1 ∧
          ((q.1 : Int), (q.2 : Int)) = (5 + dx, 5 + dy)) := by
  refine ⟨by decide, ?_⟩
  obtain ⟨calls, h1, h2, h3, _, _, _, _, h8⟩ :=
    lcd_fill_circle_pixels 5 5 1 0xFFE0 4 (by decide) (by decide) (by decide) (by decide)
      (by decide)
  exact ⟨calls, h1, h2, h3, h8 (by decide) (by decide) (by decide) (by decide)⟩

/-! ## Glyph lookup -/

set_option maxRecDepth 100000 in
theorem glyph_index_unsupported :
    ∀ n, n < 256 → n ∉ supported_chars → Dashboard.glyph_index n = none := by
  decide

theorem supported_chars_lt : ∀ s ∈ supported_chars, s < 128 := by
  decide

/-- C11: for every character `c` (a `char` value, signed or unsigned) that is
not one of the 33 supported characters, and every `x`, `y`, colour and scale,
`lcd_draw_char` produces no event at all. -/
theorem lcd_draw_char_unsupported (x y c color size : Int) (hc : -128 ≤ c ∧ c < 256)
    (hns : ∀ s ∈ supported_chars, (s : Int) ≠ c) :
    Dashboard.lcd_draw_char x y c color size = [] := by
  have hlt : toU8 c < 256 := by unfold toU8; omega
  have hnot : toU8 c ∉ supported_chars := by
    intro hmem
    have h128 := supported_chars_lt _ hmem
    apply hns _ hmem
    unfold toU8 at h128 ⊢
    omega
  unfold Dashboard.lcd_draw_char
  simp only [glyph_index_unsupported _ hlt hnot]

theorem lcd_draw_char_unsupported_witness :
    Dashboard.lcd_draw_char 40 8 ('B').toNat 0xFFFF 2 = [] :=
  lcd_draw_char_unsupported 40 8 ('B').toNat 0xFFFF 2 (by decide) (by decide)

/-! ## Windows and rectangles -/

/-- C13: for every 16-bit `x0`, `y0`, `x1`, `y1`, the face variant's
`lcd_set_window` writes `min(x1, 175)` to register 0x36 and `min(y1, 219)` to
register 0x38 (then the start corner, the cursor and the write command), so the
programmed end corner never exceeds the 176x220 panel. -/
theorem face_set_window_clips (x0 y0 x1 y1 : Nat) (hx0 : x0 < 65536) (hy0 : y0 < 65536)
    (hx1 : x1 < 65536) (hy1 : y1 < 65536) :
    Face.lcd_set_window x0 y0 x1 y1 =
        Face.lcd_write_register 0x0036 (min x1 175 : Nat) ++
        Face.lcd_write_register 0x0037 x0 ++
        Face.lcd_write_register 0x0038 (min y1 219 : Nat) ++
        Face.lcd_write_register 0x0039 y0 ++
        Face.lcd_write_register 0x0020 x0 ++
        Face.lcd_write_register 0x0021 y0 ++
        Face.lcd_write_reg 0x0022 ∧
    Face.lcd_write_register 0x0036 (min x1 175 : Nat) =
        [Event.dc false, Event.tx 0x00, Event.tx 0x36,
          Event.dc true, Event.tx 0x00, Event.tx (min x1 175)] ∧
    Face.lcd_write_register 0x0038 (min y1 219 : Nat) =
        [Event.dc false, Event.tx 0x00, Event.tx 0x38,
          Event.dc true, Event.tx 0x00, Event.tx (min y1 219)] ∧
    min x1 175 ≤ 175 ∧ min y1 219 ≤ 219 := by
  have e1 : (if toU16 (x1 : Int) ≥ Face.LCD_W then Face.LCD_W - 1 else toU16 (x1 : Int)) =
      min x1 175 := by
    rw [toU16_of_lt x1 hx1]; unfold Face.LCD_W; split <;> omega
  have e2 : (if toU16 (y1 : Int) ≥ Face.LCD_H then Face.LCD_H - 1 else toU16 (y1 : Int)) =
      min y1 219 := by
    rw [toU16_of_lt y1 hy1]; unfold Face.LCD_H; split <;> omega
  refine ⟨?_, ?_, ?_, by omega, by omega⟩
  · unfold Face.lcd_set_window
    simp only [e1, e2, toU16_of_lt x0 hx0, toU16_of_lt y0 hy0]
  · have h : min x1 175 < 256 := by omega
    have h2 : toU16 ((min x1 175 : Nat) : Int) = min x1 175 := toU16_of_lt _ (by omega)
    have h3 : toU16 (0x0036 : Int) = 0x36 := by decide
    unfold Face.lcd_write_register Face.lcd_write_reg Face.lcd_write_data
    simp only [h2, h3, spi_tx, shr8_eq, and255_eq]
    have a1 : min x1 175 / 256 % 256 = 0 := by omega
    have a2 : min x1 175 % 256 % 256 = min x1 175 := by omega
    simp [a1, a2]
  · have h : min y1 219 < 256 := by omega
    have h2 : toU16 ((min y1 219 : Nat) : Int) = min y1 219 := toU16_of_lt _ (by omega)
    have h3 : toU16 (0x0038 : Int) = 0x38 := by decide
    unfold Face.lcd_write_register Face.lcd_write_reg Face.lcd_write_data
    simp only [h2, h3, spi_tx, shr8_eq, and255_eq]
    have a1 : min y1 219 / 256 % 256 = 0 := by omega
    have a2 : min y1 219 % 256 % 256 = min y1 219 := by omega
    simp [a1, a2]

theorem face_set_window_clips_witness :
    Face.lcd_set_window (0 : Nat) (0 : Nat) (300 : Nat) (100 : Nat) =
        Face.lcd_write_register 0x0036 (min 300 175 : Nat) ++
        Face.lcd_write_register 0x0037 (0 : Nat) ++
        Face.lcd_write_register 0x0038 (min 100 219 : Nat) ++
        Face.lcd_write_register 0x0039 (0 : Nat) ++
        Face.lcd_write_register 0x0020 (0 : Nat) ++
        Face.lcd_write_register 0x0021 (0 : Nat) ++
        Face.lcd_write_reg 0x0022 ∧
    Face.lcd_write_register 0x0036 (min 300 175 : Nat) =
        [Event.dc false, Event.tx 0x00, Event.tx 0x36,
          Event.dc true, Event.tx 0x00, Event.tx (min 300 175)] ∧
    Face.lcd_write_register 0x0038 (min 100 219 : Nat) =
        [Event.dc false, Event.tx 0x00, Event.tx 0x38,
          Event.dc true, Event.tx 0x00, Event.tx (min 100 219)] ∧
    min 300 175 ≤ 175 ∧ min 100 219 ≤ 219 :=
  face_set_window_clips 0 0 300 100 (by decide) (by decide) (by decide) (by decide)

/-- C14, the failing input: the dashboard `lcd_fill_rect(239, 0, 2, 1, 0)`
programs the window `(239, 0, 240, 0)`, whose end column bytes are `0x00 0xF0`
(240, beyond the last column 239), and streams both colour values. -/
theorem dashboard_fill_rect_past_panel :
    Dashboard.lcd_fill_rect 239 0 2 1 0 =
        Dashboard.lcd_set_window 239 0 240 0 ++ [Event.dc true] ++ stream_color 0 2 ∧
    Dashboard.lcd_set_window 239 0 240 0 =
        [Event.dc false, Event.tx 0x2A,
          Event.dc true, Event.tx 0x00, Event.dc true, Event.tx 239,
          Event.dc true, Event.tx 0x00, Event.dc true, Event.tx 240,
          Event.dc false, Event.tx 0x2B,
          Event.dc true, Event.tx 0x00, Event.dc true, Event.tx 0x00,
          Event.dc true, Event.tx 0x00, Event.dc true, Event.tx 0x00,
          Event.dc false, Event.tx 0x2C] ∧
    stream_color 0 2 = [Event.tx 0, Event.tx 0, Event.tx 0, Event.tx 0] ∧
    ¬ (240 ≤ 239) := by
  decide

/-- C15, the failing input: the face `lcd_fill_rect(175, 0, 176, 0, 0)` programs
the clipped window `(175, 0, 175, 0)` of one pixel and streams two colour values. -/
theorem face_fill_rect_streams_past_window :
    Face.lcd_fill_rect 175 0 176 0 0 =
        Face.lcd_set_window 175 0 175 0 ++ [Event.dc true] ++ stream_color 0 2 ∧
    Face.lcd_set_window 175 0 176 0 = Face.lcd_set_window 175 0 175 0 ∧
    (175 - 175 + 1) * (0 - 0 + 1) = 1 ∧ ¬ (2 = 1) := by
  decide

/-! ## Date text and clock arithmetic -/

/-- C16, as stated, fails: for day 100, which the `uint8_t` field holds, the
date text is `":0/01/2026"`, whose first character is not a decimal digit. -/
theorem date_str_day_100_not_digits :
    c_string (Dashboard.date_str ⟨100, 1, 2026, 1, 5, 0⟩) = chars ":0/01/2026" ∧
    ¬ (('0').toNat ≤ (c_string (Dashboard.date_str ⟨100, 1, 2026, 1, 5, 0⟩)).getD 0 0 ∧
       (c_string (Dashboard.date_str ⟨100, 1, 2026, 1, 5, 0⟩)).getD 0 0 ≤ ('9').toNat) := by
  decide

theorem exists_infix_append {α : Type} (t x r : List α)
    (h : ∃ pre post : List α, t = pre ++ x ++ post) :
    ∃ pre post : List α, t ++ r = pre ++ x ++ post := by
  obtain ⟨pre, post, rfl⟩ := h
  exact ⟨pre, post ++ r, by simp⟩

/-- C16, amended: for every timestamp with day and month below 100 and year
below 10000, the date text that `display_meter_screen` draws (at column 60, row
28, scale 2) has exactly ten characters: two digits that read as the day, `/`,
two digits that read as the month, `/`, and four digits that read as the year. -/
theorem date_str_format (last_dt : Dashboard.DateTime)
    (is_tamper voltage curr temp light mag events : Int) (buffer : Nat → List Nat)
    (hd : last_dt.day < 100) (hm : last_dt.month < 100) (hy : last_dt.year < 10000) :
    (∃ pre post : List Event,
      Dashboard.display_meter_screen is_tamper voltage curr temp light mag events last_dt
          buffer =
        pre ++ Dashboard.lcd_draw_string 60 28 (Dashboard.date_str last_dt)
          Dashboard.TEXT_BLACK 2 ++ post) ∧
    (c_string (Dashboard.date_str last_dt)).length = 10 ∧
    ∃ d1 d0 m1 m0 y3 y2 y1 y0 : Nat,
      d1 < 10 ∧ d0 < 10 ∧ m1 < 10 ∧ m0 < 10 ∧ y3 < 10 ∧ y2 < 10 ∧ y1 < 10 ∧ y0 < 10 ∧
      c_string (Dashboard.date_str last_dt) =
        [d1 + ('0').toNat, d0 + ('0').toNat, ('/').toNat,
         m1 + ('0').toNat, m0 + ('0').toNat, ('/').toNat,
         y3 + ('0').toNat, y2 + ('0').toNat, y1 + ('0').toNat, y0 + ('0').toNat] ∧
      10 * d1 + d0 = last_dt.day ∧ 10 * m1 + m0 = last_dt.month ∧
      1000 * y3 + 100 * y2 + 10 * y1 + y0 = last_dt.year := by
  have h0 : ('0').toNat = 48 := by decide
  have hs : ('/').toNat = 47 := by decide
  have e : c_string (Dashboard.date_str last_dt) =
      [last_dt.day / 10 + 48, last_dt.day % 10 + 48, 47,
       last_dt.month / 10 + 48, last_dt.month % 10 + 48, 47,
       last_dt.year / 1000 % 10 + 48, last_dt.year / 100 % 10 + 48,
       last_dt.year / 10 % 10 + 48, last_dt.year % 10 + 48] := by
    have a1 : (last_dt.day / 10 + 48) % 256 = last_dt.day / 10 + 48 := by omega
    have a2 : (last_dt.day % 10 + 48) % 256 = last_dt.day % 10 + 48 := by omega
    have a3 : (last_dt.month / 10 + 48) % 256 = last_dt.month / 10 + 48 := by omega
    have a4 : (last_dt.month % 10 + 48) % 256 = last_dt.month % 10 + 48 := by omega
    have a5 : (last_dt.year / 1000 % 10 + 48) % 256 = last_dt.year / 1000 % 10 + 48 := by omega
    have a6 : (last_dt.year / 100 % 10 + 48) % 256 = last_dt.year / 100 % 10 + 48 := by omega
    have a7 : (last_dt.year / 10 % 10 + 48) % 256 = last_dt.year / 10 % 10 + 48 := by omega
    have a8 : (last_dt.year % 10 + 48) % 256 = last_dt.year % 10 + 48 := by omega
    unfold c_string Dashboard.date_str
    simp only [h0, hs, a1, a2, a3, a4, a5, a6, a7, a8]
    simp [List.takeWhile]
  refine ⟨?_, ?_, ?_⟩
  · unfold Dashboard.display_meter_screen
    simp only []
    iterate 22 apply exists_infix_append
    exact ⟨_, [], (List.append_nil _).symm⟩
  · rw [e]; rfl
  · refine ⟨last_dt.day / 10, last_dt.day % 10, last_dt.month / 10, last_dt.month % 10,
      last_dt.year / 1000 % 10, last_dt.year / 100 % 10, last_dt.year / 10 % 10,
      last_dt.year % 10, by omega, by omega, by omega, by omega, by omega, by omega, by omega,
      by omega, ?_, by omega, by omega, by omega⟩
    rw [e, h0, hs]

theorem date_str_format_witness :
    (c_string (Dashboard.date_str ⟨10, 1, 2026, 1, 5, 0⟩)).length = 10 ∧
    c_string (Dashboard.date_str ⟨10, 1, 2026, 1, 5, 0⟩) = chars "10/01/2026" :=
  ⟨(date_str_format ⟨10, 1, 2026, 1, 5, 0⟩ 0 237 95 48 189 112 1 (fun _ => [])
      (by decide) (by decide) (by decide)).2.1, by decide⟩

/-- C18: for every `DateTime` with minute below 60 and hour below 24 and every
8-bit `minutes` (0..255, also when `minute + minutes` wraps the 8-bit minute
field), the result of `datetime_add_minutes` again has minute below 60 and hour
below 24.  Only the bound on the hour is needed: the minute field and the
argument are reduced to 8 bits by the code itself. -/
theorem datetime_add_minutes_valid (dt : Dashboard.DateTime) (minutes : Nat)
    (hhour : dt.hour < 24) :
    (Dashboard.datetime_add_minutes dt minutes).minute < 60 ∧
    (Dashboard.datetime_add_minutes dt minutes).hour < 24 := by
  unfold Dashboard.datetime_add_minutes
  simp only [toU8_natCast]
  split_ifs with h1 h2
  · exact ⟨Nat.mod_lt _ (by decide), Nat.mod_lt _ (by decide)⟩
  · refine ⟨Nat.mod_lt _ (by decide), ?_⟩
    simp only at h2 ⊢
    omega
  · simp only at h1 ⊢
    omega

theorem datetime_add_minutes_valid_witness :
    (Dashboard.datetime_add_minutes ⟨10, 1, 2026, 23, 59, 0⟩ (255 : Nat)).minute < 60 ∧
    (Dashboard.datetime_add_minutes ⟨10, 1, 2026, 23, 59, 0⟩ (255 : Nat)).hour < 24 :=
  datetime_add_minutes_valid ⟨10, 1, 2026, 23, 59, 0⟩ 255 (by decide)

/-- C19: for every `DateTime` with minute below 60 and hour below 24 and every
`minutes` with `minute + minutes ≤ 255`, when the day carry does not overflow
the 8-bit day, `datetime_add_minutes` advances the clock by exactly `minutes`:
`day*1440 + hour*60 + minute` grows by `minutes`. -/
theorem datetime_add_minutes_exact (dt : Dashboard.DateTime) (minutes : Nat)
    (hmin : dt.minute < 60) (hhour : dt.hour < 24) (hsum : dt.minute + minutes ≤ 255)
    (hday : dt.day + (dt.hour + (dt.minute + minutes) / 60) / 24 ≤ 255) :
    (Dashboard.datetime_add_minutes dt minutes).day * 1440 +
        (Dashboard.datetime_add_minutes dt minutes).hour * 60 +
        (Dashboard.datetime_add_minutes dt minutes).minute =
      dt.day * 1440 + dt.hour * 60 + dt.minute + minutes := by
  unfold Dashboard.datetime_add_minutes
  simp only [toU8_natCast]
  have e1 : (dt.minute + minutes % 256) % 256 = dt.minute + minutes := by omega
  simp only [e1]
  split_ifs with h1 h2
  · simp only at h2 ⊢
    omega
  · simp only at h2 ⊢
    omega
  · simp only
    omega

theorem datetime_add_minutes_exact_witness :
    (Dashboard.datetime_add_minutes ⟨10, 1, 2026, 23, 55, 0⟩ (200 : Nat)).day * 1440 +
        (Dashboard.datetime_add_minutes ⟨10, 1, 2026, 23, 55, 0⟩ (200 : Nat)).hour * 60 +
        (Dashboard.datetime_add_minutes ⟨10, 1, 2026, 23, 55, 0⟩ (200 : Nat)).minute =
      10 * 1440 + 23 * 60 + 55 + 200 :=
  datetime_add_minutes_exact ⟨10, 1, 2026, 23, 55, 0⟩ 200 (by decide) (by decide) (by decide)
    (by decide)

/-! ## Stores of `int_to_string` -/

theorem int_to_string_digits_logged_spec (num : Nat) : ∀ (i : Nat) (str : List Nat),
    ((Dashboard.int_to_string_digits_logged num i str).1,
      (Dashboard.int_to_string_digits_logged num i str).2.1) =
        Dashboard.int_to_string_digits num i str ∧
    (Dashboard.int_to_string_digits_logged num i str).1 = i + (Nat.digits 10 num).length ∧
    ∀ idx ∈ (Dashboard.int_to_string_digits_logged num i str).2.2,
      (i : Int) ≤ idx ∧ idx < (i : Int) + ((Nat.digits 10 num).length : Nat) := by
  induction num using Nat.strong_induction_on with
  | _ num ih =>
    intro i str
    rw [Dashboard.int_to_string_digits_logged, Dashboard.int_to_string_digits]
    split
    · rename_i hpos
      obtain ⟨h1, h2, h3⟩ := ih (num / 10) (Nat.div_lt_self hpos (by decide)) (i + 1)
        (str.set i ((num % 10 + ('0').toNat) % 256))
      rw [Nat.digits_def' (by decide) hpos]
      refine ⟨h1, ?_, ?_⟩
      · simp only [h2, List.length_cons]; omega
      · intro idx hidx
        simp only [List.mem_cons] at hidx
        simp only [List.length_cons]
        rcases hidx with rfl | hidx
        · omega
        · have := h3 idx hidx
          push_cast at this ⊢
          omega
    · rename_i hz
      have : num = 0 := by omega
      subst this
      simp

theorem int_to_string_reverse_logged_spec (n : Nat) : ∀ (start end_ : Int) (str : List Nat),
    (end_ - start).toNat ≤ n →
    (Dashboard.int_to_string_reverse_logged start end_ str).1 =
        Dashboard.int_to_string_reverse start end_ str ∧
    ∀ idx ∈ (Dashboard.int_to_string_reverse_logged start end_ str).2,
      start ≤ idx ∧ idx ≤ end_ := by
  induction n using Nat.strong_induction_on with
  | _ n ih =>
    intro start end_ str hn
    rw [Dashboard.int_to_string_reverse_logged, Dashboard.int_to_string_reverse]
    split
    · rename_i hlt
      obtain ⟨h1, h2⟩ := ih ((end_ - 1 - (start + 1)).toNat) (by omega) (start + 1) (end_ - 1)
        ((str.set start.toNat (str.getD end_.toNat 0)).set end_.toNat (str.getD start.toNat 0))
        (le_refl _)
      refine ⟨h1, ?_⟩
      intro idx hidx
      simp only [List.mem_cons] at hidx
      rcases hidx with rfl | rfl | hidx
      · omega
      · omega
      · have := h2 idx hidx
        omega
    · simp

theorem c_string_int_to_string (num : Nat) (str : List Nat) (hnum : num < 65536)
    (hlen : 6 ≤ str.length) :
    c_string (Dashboard.int_to_string num str) = decimal_numeral num := by
  have h0 : ('0').toNat = 48 := by decide
  rw [int_to_string_eq num str hnum hlen]
  apply c_string_terminated
  intro c hc
  have := decimal_numeral_digit num c hc
  omega

/-- C20: for every unsigned 16-bit `num`, `int_to_string` computes the same
buffer when its stores are logged, every store goes to an index from 0 to 5,
and it writes at most 5 digit characters followed by the terminator; so neither
the 6-byte buffer of `lcd_draw_number` nor the 16-byte buffer of
`send_sensor_data` is written out of bounds. -/
theorem int_to_string_stores_in_bounds (num : Nat) (str : List Nat) (hnum : num < 65536) :
    (Dashboard.int_to_string_logged num str).1 = Dashboard.int_to_string num str ∧
    (∀ idx ∈ (Dashboard.int_to_string_logged num str).2, 0 ≤ idx ∧ idx ≤ 5) ∧
    (∀ idx ∈ (Dashboard.int_to_string_logged num str).2, idx < 6 ∧ idx < 16) ∧
    (6 ≤ str.length →
      (c_string (Dashboard.int_to_string num str)).length ≤ 5 ∧
      (Dashboard.int_to_string num str).getD
        (c_string (Dashboard.int_to_string num str)).length 1 = 0) := by
  have hidx : (Dashboard.int_to_string_logged num str).1 = Dashboard.int_to_string num str ∧
      ∀ idx ∈ (Dashboard.int_to_string_logged num str).2, 0 ≤ idx ∧ idx ≤ 5 := by
    unfold Dashboard.int_to_string_logged Dashboard.int_to_string
    simp only [toU16_of_lt num hnum]
    by_cases h0 : num = 0
    · subst h0
      simp
    · simp only [if_neg h0]
      obtain ⟨h1, h2, h3⟩ := int_to_string_digits_logged_spec num 0 str
      have hd : (Nat.digits 10 num).length ≤ 5 := digits_length_le 5 num (by norm_num; omega)
      obtain ⟨r1, r2⟩ := int_to_string_reverse_logged_spec _ 0
        (((Dashboard.int_to_string_digits_logged num 0 str).1 : Int) - 1)
        ((Dashboard.int_to_string_digits_logged num 0 str).2.1.set
          (Dashboard.int_to_string_digits_logged num 0 str).1 0) (le_refl _)
      constructor
      · rw [r1, ← h1]
      · intro idx hmem
        simp only [List.mem_append, List.mem_singleton] at hmem
        rcases hmem with (hmem | rfl) | hmem
        · have := h3 idx hmem
          omega
        · omega
        · have := r2 idx hmem
          omega
  refine ⟨hidx.1, hidx.2, ?_, ?_⟩
  · intro idx hmem
    have := hidx.2 idx hmem
    omega
  · intro hlen
    rw [c_string_int_to_string num str hnum hlen]
    have hl := decimal_numeral_length num hnum
    refine ⟨hl.2, ?_⟩
    rw [int_to_string_eq num str hnum hlen, List.getD_append_right _ _ _ _ (le_refl _)]
    simp

theorem int_to_string_stores_in_bounds_witness :
    Dashboard.int_to_string_logged (65535 : Nat) [9, 9, 9, 9, 9, 9] =
      (chars "65535" ++ [0], [0, 1, 2, 3, 4, 5, 0, 4, 1, 3]) ∧
    (Dashboard.int_to_string_logged (65535 : Nat) [9, 9, 9, 9, 9, 9]).1 =
      Dashboard.int_to_string (65535 : Nat) [9, 9, 9, 9, 9, 9] ∧
    (∀ idx ∈ (Dashboard.int_to_string_logged (65535 : Nat) [9, 9, 9, 9, 9, 9]).2,
      0 ≤ idx ∧ idx ≤ 5) := by
  have h := int_to_string_stores_in_bounds 65535 [9, 9, 9, 9, 9, 9] (by decide)
  refine ⟨?_, h.1, h.2.1⟩
  simp [Dashboard.int_to_string_logged, Dashboard.int_to_string_digits_logged,
    Dashboard.int_to_string_reverse_logged, toU16, chars]

/-! ## Glyph rendering -/

theorem draw_char_rows_eq_calls (x y color size i : Nat) (n : Nat) : ∀ (j line : Nat),
    Dashboard.draw_char_rows x y color size i n j line =
      (Dashboard.draw_char_rows_calls x y size i n j line).flatMap fun p =>
        Dashboard.lcd_draw_pixel p.1 p.2 color := by
  induction n with
  | zero => intro j line; rfl
  | succ n ih =>
    intro j line
    simp only [Dashboard.draw_char_rows, Dashboard.draw_char_rows_calls, List.flatMap_append, ih]
    congr 1
    split
    · simp only [List.flatMap_assoc, List.flatMap_map]
      apply List.flatMap_congr
      intro sx _
      apply List.flatMap_congr
      intro sy _
      push_cast
      rfl
    · rfl

theorem lcd_draw_char_eq_calls (x y c color size : Int) :
    Dashboard.lcd_draw_char x y c color size =
      (Dashboard.lcd_draw_char_calls x y c size).flatMap fun p =>
        Dashboard.lcd_draw_pixel p.1 p.2 color := by
  unfold Dashboard.lcd_draw_char Dashboard.lcd_draw_char_calls
  simp only []
  split
  · rfl
  · simp only [List.flatMap_assoc]
    apply List.flatMap_congr
    intro i _
    rw [draw_char_rows_eq_calls]
    apply List.flatMap_congr
    intro p _
    unfold Dashboard.lcd_draw_pixel
    simp only [toU16_toU16]

theorem draw_char_rows_calls_eq (x y size i : Nat) (n : Nat) : ∀ (j line : Nat), line < 256 →
    Dashboard.draw_char_rows_calls x y size i n j line =
      (List.range n).flatMap fun k =>
        if line.testBit k then
          (List.range size).flatMap fun sx =>
            (List.range size).map fun sy =>
              (((x + i * size + sx : Nat) : Int), ((y + (j + k) * size + sy : Nat) : Int))
        else [] := by
  induction n with
  | zero => intro j line _; rfl
  | succ n ih =>
    intro j line hline
    have hshift : (line >>> 1) % 256 = line / 2 := by
      rw [Nat.shiftRight_eq_div_pow]; omega
    have hbit : (line &&& 0x01 ≠ 0) ↔ line.testBit 0 = true := by
      rw [Nat.and_one_is_mod, Nat.testBit_zero]; simp
    simp only [Dashboard.draw_char_rows_calls, List.range_succ_eq_map, List.flatMap_cons,
      List.flatMap_map, hshift]
    rw [ih (j + 1) (line / 2) (by omega)]
    congr 1
    · by_cases hb : line.testBit 0 = true
      · rw [if_pos (hbit.mpr hb), if_pos hb]; rfl
      · rw [if_neg (fun h => hb (hbit.mp h)), if_neg hb]
    · apply List.flatMap_congr
      intro k _
      have e : j + 1 + k = j + (k + 1) := by omega
      simp only [Nat.testBit_div_two, e, Nat.succ_eq_add_one]

theorem font5x7_bytes_lt : ∀ k, k < 33 → ∀ col, col < 5 →
    (Dashboard.font5x7.getD k []).getD col 0 < 128 := by
  decide

theorem glyph_index_supported : ∀ k, k < 33 →
    Dashboard.glyph_index (supported_chars.getD k 0) = some k ∧ supported_chars.getD k 0 < 256 := by
  decide

theorem length_flatMap_const {α β : Type} (l : List α) (f : α → List β) (m : Nat)
    (h : ∀ a, (f a).length = m) : (l.flatMap f).length = l.length * m := by
  induction l with
  | nil => simp
  | cons a t ih => simp only [List.flatMap_cons, List.length_append, h, ih, List.length_cons]; ring

theorem length_flatMap_ite {α β : Type} (l : List α) (p : α → Bool) (f : α → List β) (m : Nat)
    (h : ∀ a, (f a).length = m) :
    (l.flatMap fun a => if p a = true then f a else []).length = m * (l.filter p).length := by
  induction l with
  | nil => simp
  | cons a t ih =>
    simp only [List.flatMap_cons, List.length_append, ih, List.filter_cons]
    by_cases hp : p a = true
    · simp only [if_pos hp, h, List.length_cons]; ring
    · simp only [if_neg hp, List.length_nil, Nat.zero_add]

/-- The calls of `lcd_draw_char` for the supported character number `k`, as
blocks of `S × S` calls, one for each set bit of the glyph, by column and row. -/
theorem lcd_draw_char_calls_eq (x y S k : Nat) (hx : x < 65536) (hy : y < 65536)
    (hS : S < 256) (hk : k < 33) :
    Dashboard.lcd_draw_char_calls x y (supported_chars.getD k 0 : Nat) S =
      (List.range 5).flatMap fun col =>
        (List.range 8).flatMap fun row =>
          if glyph_bit k col row = true then
            (List.range S).flatMap fun sx =>
              (List.range S).map fun sy =>
                (((x + col * S + sx : Nat) : Int), ((y + row * S + sy : Nat) : Int))
          else [] := by
  obtain ⟨hidx, hc⟩ := glyph_index_supported k hk
  have hc2 : toU8 ((supported_chars.getD k 0 : Nat) : Int) = supported_chars.getD k 0 := by
    rw [toU8_natCast]; omega
  have hS2 : toU8 (S : Int) = S := by rw [toU8_natCast]; omega
  unfold Dashboard.lcd_draw_char_calls
  simp only [toU16_of_lt x hx, toU16_of_lt y hy, hc2, hS2, hidx]
  apply List.flatMap_congr
  intro col hcol
  rw [List.mem_range] at hcol
  have hb := font5x7_bytes_lt k hk col hcol
  rw [draw_char_rows_calls_eq x y S col 8 0 _ (by omega)]
  apply List.flatMap_congr
  intro row _
  simp only [Nat.zero_add, glyph_bit]

theorem mem_lcd_draw_char_calls (x y S k : Nat) (hx : x < 65536) (hy : y < 65536)
    (hS : S < 256) (hk : k < 33) (p : Int × Int) :
    p ∈ Dashboard.lcd_draw_char_calls x y (supported_chars.getD k 0 : Nat) S ↔
      ∃ col row sx sy : Nat, col < 5 ∧ row < 8 ∧ sx < S ∧ sy < S ∧
        glyph_bit k col row = true ∧
        p = (((x + col * S + sx : Nat) : Int), ((y + row * S + sy : Nat) : Int)) := by
  rw [lcd_draw_char_calls_eq x y S k hx hy hS hk]
  simp only [List.mem_flatMap, List.mem_range]
  constructor
  · rintro ⟨col, hcol, row, hrow, hmem⟩
    split at hmem
    · rename_i hbit
      simp only [List.mem_flatMap, List.mem_map, List.mem_range] at hmem
      obtain ⟨sx, hsx, sy, hsy, rfl⟩ := hmem
      exact ⟨col, row, sx, sy, hcol, hrow, hsx, hsy, hbit, rfl⟩
    · simp at hmem
  · rintro ⟨col, row, sx, sy, hcol, hrow, hsx, hsy, hbit, rfl⟩
    refine ⟨col, hcol, row, hrow, ?_⟩
    rw [if_pos hbit]
    simp only [List.mem_flatMap, List.mem_map, List.mem_range]
    exact ⟨sx, hsx, sy, hsy, rfl⟩

theorem length_lcd_draw_char_calls (x y S k : Nat) (hx : x < 65536) (hy : y < 65536)
    (hS : S < 256) (hk : k < 33) :
    (Dashboard.lcd_draw_char_calls x y (supported_chars.getD k 0 : Nat) S).length =
      S * S * glyph_bits k := by
  rw [lcd_draw_char_calls_eq x y S k hx hy hS hk]
  have hblock : ∀ col row : Nat, ((List.range S).flatMap fun sx =>
      (List.range S).map fun sy =>
        (((x + col * S + sx : Nat) : Int), ((y + row * S + sy : Nat) : Int))).length =
      S * S := by
    intro col row
    rw [length_flatMap_const _ _ S (by intro a; simp)]
    simp
  have hcol : ∀ col : Nat, ((List.range 8).flatMap fun row =>
      if glyph_bit k col row = true then
        (List.range S).flatMap fun sx =>
          (List.range S).map fun sy =>
            (((x + col * S + sx : Nat) : Int), ((y + row * S + sy : Nat) : Int))
      else []).length =
      S * S * set_bits ((Dashboard.font5x7.getD k []).getD col 0) := by
    intro col
    rw [length_flatMap_ite (List.range 8) (fun row => glyph_bit k col row) _ (S * S)
      (hblock col)]
    rfl
  rw [List.length_flatMap]
  simp only [Function.comp_def, hcol]
  rw [List.sum_map_mul_left]
  rfl

/-- C12: for the supported character number `k` (in the order of `font5x7`),
every 16-bit origin `(x, y)` and every scale `S`, `lcd_draw_char` is the
sequence of its `lcd_draw_pixel` calls; a call is made at
`(x + col*S + sx, y + row*S + sy)`, `sx, sy < S`, exactly when bit `row` of
column byte `col` of glyph `k` is set (`col < 5`, bit 0 on top), and at no other
coordinate; the number of calls is `S*S` times the number of set bits. -/
theorem lcd_draw_char_glyph (x y color S k : Nat) (hx : x < 65536) (hy : y < 65536)
    (hS : S < 256) (hk : k < 33) :
    Dashboard.glyph_index (supported_chars.getD k 0) = some k ∧
    Dashboard.lcd_draw_char x y (supported_chars.getD k 0 : Nat) color S =
      ((Dashboard.lcd_draw_char_calls x y (supported_chars.getD k 0 : Nat) S).flatMap fun p =>
        Dashboard.lcd_draw_pixel p.1 p.2 color) ∧
    (∀ p : Int × Int,
      p ∈ Dashboard.lcd_draw_char_calls x y (supported_chars.getD k 0 : Nat) S ↔
        ∃ col row sx sy : Nat, col < 5 ∧ row < 8 ∧ sx < S ∧ sy < S ∧
          glyph_bit k col row = true ∧
          p = (((x + col * S + sx : Nat) : Int), ((y + row * S + sy : Nat) : Int))) ∧
    (Dashboard.lcd_draw_char_calls x y (supported_chars.getD k 0 : Nat) S).length =
      S * S * glyph_bits k :=
  ⟨(glyph_index_supported k hk).1, lcd_draw_char_eq_calls _ _ _ _ _,
    mem_lcd_draw_char_calls x y S k hx hy hS hk, length_lcd_draw_char_calls x y S k hx hy hS hk⟩

theorem lcd_draw_char_glyph_witness :
    Dashboard.lcd_draw_char_calls (10 : Nat) (20 : Nat) ((('1').toNat : Nat) : Int) (2 : Nat) =
      [(12, 22), (12, 23), (13, 22), (13, 23), (12, 32), (12, 33), (13, 32), (13, 33),
       (14, 20), (14, 21), (15, 20), (15, 21), (14, 22), (14, 23), (15, 22), (15, 23),
       (14, 24), (14, 25), (15, 24), (15, 25), (14, 26), (14, 27), (15, 26), (15, 27),
       (14, 28), (14, 29), (15, 28), (15, 29), (14, 30), (14, 31), (15, 30), (15, 31),
       (14, 32), (14, 33), (15, 32), (15, 33), (16, 32), (16, 33), (17, 32), (17, 33)] ∧
    glyph_bits 2 = 10 ∧
    (Dashboard.lcd_draw_char_calls (10 : Nat) (20 : Nat) (supported_chars.getD 2 0 : Nat)
      (2 : Nat)).length = 2 * 2 * glyph_bits 2 ∧
    (∀ p : Int × Int,
      p ∈ Dashboard.lcd_draw_char_calls (10 : Nat) (20 : Nat) (supported_chars.getD 2 0 : Nat)
          (2 : Nat) ↔
        ∃ col row sx sy : Nat, col < 5 ∧ row < 8 ∧ sx < 2 ∧ sy < 2 ∧
          glyph_bit 2 col row = true ∧
          p = (((10 + col * 2 + sx : Nat) : Int), ((20 + row * 2 + sy : Nat) : Int))) := by
  have h := lcd_draw_char_glyph 10 20 0 2 2 (by decide) (by decide) (by decide) (by decide)
  exact ⟨by decide, by decide, h.2.2.2, h.2.2.1⟩

/-- C17: the table `font5x7` has 33 glyphs of 5 column bytes, every one with
bit 7 clear; so, although `lcd_draw_char` scans 8 bits per column, for every
supported character and every scale `S` no call of `lcd_draw_pixel` has a row
beyond `y + 7*S - 1` (or above `y`): a glyph has at most 7 active rows. -/
theorem font5x7_seven_rows (x y S k : Nat) (hx : x < 65536) (hy : y < 65536)
    (hS : S < 256) (hk : k < 33) :
    Dashboard.font5x7.length = 33 ∧
    (∀ g ∈ Dashboard.font5x7, g.length = 5 ∧ ∀ b ∈ g, b.testBit 7 = false) ∧
    (∀ col : Nat, col < 5 → glyph_bit k col 7 = false) ∧
    (∀ p ∈ Dashboard.lcd_draw_char_calls x y (supported_chars.getD k 0 : Nat) S,
      (y : Int) ≤ p.2 ∧ p.2 ≤ (y : Int) + 7 * S - 1) := by
  have hbit7 : ∀ col : Nat, col < 5 → glyph_bit k col 7 = false := by
    intro col hcol
    unfold glyph_bit
    exact Nat.testBit_lt_two_pow (font5x7_bytes_lt k hk col hcol)
  refine ⟨by decide, by decide, hbit7, ?_⟩
  intro p hp
  obtain ⟨col, row, sx, sy, hcol, hrow, hsx, hsy, hbit, rfl⟩ :=
    (mem_lcd_draw_char_calls x y S k hx hy hS hk p).mp hp
  have hrow6 : row ≤ 6 := by
    by_contra hgt
    have : row = 7 := by omega
    subst this
    rw [hbit7 col hcol] at hbit
    exact Bool.noConfusion hbit
  have hmul : row * S ≤ 6 * S := Nat.mul_le_mul_right S hrow6
  simp only
  push_cast
  constructor
  · have : (0 : Int) ≤ (row : Int) * S := by positivity
    omega
  · have hmul2 : (row : Int) * S ≤ 6 * S := by exact_mod_cast hmul
    omega

theorem font5x7_seven_rows_witness :
    Dashboard.font5x7.length = 33 ∧
    (∀ col : Nat, col < 5 → glyph_bit 2 col 7 = false) ∧
    ∀ p ∈ Dashboard.lcd_draw_char_calls (10 : Nat) (20 : Nat) (supported_chars.getD 2 0 : Nat)
        (2 : Nat),
      ((20 : Nat) : Int) ≤ p.2 ∧ p.2 ≤ ((20 : Nat) : Int) + 7 * (2 : Nat) - 1 :=
  ⟨(font5x7_seven_rows 10 20 2 2 (by decide) (by decide) (by decide) (by decide)).1,
   (font5x7_seven_rows 10 20 2 2 (by decide) (by decide) (by decide) (by decide)).2.2.1,
   (font5x7_seven_rows 10 20 2 2 (by decide) (by decide) (by decide) (by decide)).2.2.2⟩

/-! ## Random numbers and the main loop -/

theorem random_range_eq (seed : Nat) (min max : Int) (hmin : 0 ≤ min) (hle : min ≤ max)
    (hmax : max < 65536) :
    Dashboard.random_range seed min max =
      some (lcg_next seed, min.toNat + lcg_next seed % (max.toNat - min.toNat + 1)) := by
  have hmask : ∀ n : Nat, n &&& 0x7fffffff = n % 2147483648 :=
    fun n => Nat.and_pow_two_sub_one_eq_mod n 31
  have e1 : toU16 min = min.toNat := by unfold toU16; omega
  have e2 : toU16 max = max.toNat := by unfold toU16; omega
  have e3 : toU32 ((max.toNat : Int) - (min.toNat : Int) + 1) = max.toNat - min.toNat + 1 := by
    unfold toU32; omega
  unfold Dashboard.random_range
  simp only [e1, e2, e3, hmask]
  rw [if_neg (by omega)]
  have hlt : lcg_next seed % (max.toNat - min.toNat + 1) < max.toNat - min.toNat + 1 :=
    Nat.mod_lt _ (by omega)
  have e4 : toU16 (((min.toNat + lcg_next seed % (max.toNat - min.toNat + 1)) % 4294967296 : Nat) :
      Int) = min.toNat + lcg_next seed % (max.toNat - min.toNat + 1) := by
    unfold toU16; omega
  unfold lcg_next at hlt e4 ⊢
  rw [e4]
theorem random_range_bounds (seed : Nat) (min max : Int) (hmin : 0 ≤ min) (hle : min ≤ max)
    (hmax : max < 65536) :
    ∃ r : Nat, Dashboard.random_range seed min max = some (lcg_next seed, r) ∧
      min ≤ (r : Int) ∧ (r : Int) ≤ max := by
  refine ⟨_, random_range_eq seed min max hmin hle hmax, ?_, ?_⟩
  · omega
  · have hlt : lcg_next seed % (max.toNat - min.toNat + 1) < max.toNat - min.toNat + 1 :=
      Nat.mod_lt _ (by omega)
    omega

/-- C21: for every seed and every 16-bit `min ≤ max`, `random_range(min, max)`
takes no remainder by zero and returns `r` with `min ≤ r ≤ max`, leaving as the
new seed the 32-bit wrap of `seed * 1103515245 + 12345` masked to 31 bits; and
one iteration of the loop of `main`, from any state, draws a voltage in
230..240 and, on a tamper iteration, current in 50..150, temperature in 40..60,
light in 150..250 and magnetic field in 80..150, otherwise 1..15, 20..35,
0..30 and 0..10. -/
theorem random_range_in_range (seed min max : Nat) (s : Dashboard.MainState)
    (uart_buffer : List Nat) (lcd_buffer : Nat → List Nat)
    (hle : min ≤ max) (hmax : max < 65536) :
    (∃ r : Nat, Dashboard.random_range seed min max = some (lcg_next seed, r) ∧
      min ≤ r ∧ r ≤ max) ∧
    lcg_next seed < 2147483648 ∧
    (∃ (next : Dashboard.MainState) (v : Dashboard.Sample) (uart : List Nat)
        (lcd : List Event),
      Dashboard.main_loop_body s uart_buffer lcd_buffer = some (next, v, uart, lcd) ∧
      v.is_tamper = decide ((s.loop_counter + 1) % 65536 % 4 = 0) ∧
      230 ≤ v.voltage ∧ v.voltage ≤ 240 ∧
      (v.is_tamper = true →
        50 ≤ v.current ∧ v.current ≤ 150 ∧ 40 ≤ v.temp ∧ v.temp ≤ 60 ∧
        150 ≤ v.light ∧ v.light ≤ 250 ∧ 80 ≤ v.mag ∧ v.mag ≤ 150) ∧
      (v.is_tamper = false →
        1 ≤ v.current ∧ v.current ≤ 15 ∧ 20 ≤ v.temp ∧ v.temp ≤ 35 ∧
        v.light ≤ 30 ∧ v.mag ≤ 10)) := by
  refine ⟨?_, ?_, ?_⟩
  · obtain ⟨r, h1, h2, h3⟩ := random_range_bounds seed min max (by omega) (by omega) (by omega)
    exact ⟨r, h1, by omega, by omega⟩
  · unfold lcg_next
    exact Nat.mod_lt _ (by decide)
  · have r1 : ∀ sd, Dashboard.random_range sd 230 240 = some (lcg_next sd, 230 + lcg_next sd % 11) :=
      fun sd => random_range_eq sd 230 240 (by decide) (by decide) (by decide)
    have r2 : ∀ sd, Dashboard.random_range sd 50 150 = some (lcg_next sd, 50 + lcg_next sd % 101) :=
      fun sd => random_range_eq sd 50 150 (by decide) (by decide) (by decide)
    have r3 : ∀ sd, Dashboard.random_range sd 40 60 = some (lcg_next sd, 40 + lcg_next sd % 21) :=
      fun sd => random_range_eq sd 40 60 (by decide) (by decide) (by decide)
    have r4 : ∀ sd, Dashboard.random_range sd 150 250 = some (lcg_next sd, 150 + lcg_next sd % 101) :=
      fun sd => random_range_eq sd 150 250 (by decide) (by decide) (by decide)
    have r5 : ∀ sd, Dashboard.random_range sd 80 150 = some (lcg_next sd, 80 + lcg_next sd % 71) :=
      fun sd => random_range_eq sd 80 150 (by decide) (by decide) (by decide)
    have r6 : ∀ sd, Dashboard.random_range sd 1 15 = some (lcg_next sd, 1 + lcg_next sd % 15) :=
      fun sd => random_range_eq sd 1 15 (by decide) (by decide) (by decide)
    have r7 : ∀ sd, Dashboard.random_range sd 20 35 = some (lcg_next sd, 20 + lcg_next sd % 16) :=
      fun sd => random_range_eq sd 20 35 (by decide) (by decide) (by decide)
    have r8 : ∀ sd, Dashboard.random_range sd 0 30 = some (lcg_next sd, 0 + lcg_next sd % 31) :=
      fun sd => random_range_eq sd 0 30 (by decide) (by decide) (by decide)
    have r9 : ∀ sd, Dashboard.random_range sd 0 10 = some (lcg_next sd, 0 + lcg_next sd % 11) :=
      fun sd => random_range_eq sd 0 10 (by decide) (by decide) (by decide)
    unfold Dashboard.main_loop_body
    simp only [r1, r2, r3, r4, r5, r6, r7, r8, r9]
    by_cases ht : (s.loop_counter + 1) % 65536 % 4 = 0
    · simp only [ht, decide_True, if_true]
      refine ⟨_, _, _, _, rfl, rfl, ?_, ?_, ?_, ?_⟩
      · show 230 ≤ 230 + lcg_next s.seed % 11
        omega
      · show 230 + lcg_next s.seed % 11 ≤ 240
        omega
      · intro _
        simp only
        omega
      · intro h
        exact Bool.noConfusion h
    · simp only [ht, decide_False, Bool.false_eq_true, if_false]
      refine ⟨_, _, _, _, rfl, rfl, ?_, ?_, ?_, ?_⟩
      · show 230 ≤ 230 + lcg_next s.seed % 11
        omega
      · show 230 + lcg_next s.seed % 11 ≤ 240
        omega
      · intro h
        exact Bool.noConfusion h
      · intro _
        simp only
        omega

theorem random_range_in_range_witness :
    Dashboard.random_range 12345 230 240 = some (1406932606, 232) ∧
    (∃ r : Nat, Dashboard.random_range 12345 (230 : Nat) (240 : Nat) = some (lcg_next 12345, r) ∧
      230 ≤ r ∧ r ≤ 240) ∧
    lcg_next 12345 < 2147483648 ∧
    (∃ (next : Dashboard.MainState) (v : Dashboard.Sample) (uart : List Nat)
        (lcd : List Event),
      Dashboard.main_loop_body Dashboard.main_init (List.replicate 16 0)
          (fun _ => List.replicate 6 0) = some (next, v, uart, lcd) ∧
      v.is_tamper = false ∧ 230 ≤ v.voltage ∧ v.voltage ≤ 240 ∧
      1 ≤ v.current ∧ v.current ≤ 15 ∧ 20 ≤ v.temp ∧ v.temp ≤ 35 ∧
      v.light ≤ 30 ∧ v.mag ≤ 10) := by
  have h := random_range_in_range 12345 230 240 Dashboard.main_init (List.replicate 16 0)
    (fun _ => List.replicate 6 0) (by decide) (by decide)
  refine ⟨by decide, h.1, h.2.1, ?_⟩
  obtain ⟨next, v, uart, lcd, h1, h2, h3, h4, _, h6⟩ := h.2.2
  have hf : v.is_tamper = false := by rw [h2]; decide
  exact ⟨next, v, uart, lcd, h1, hf, h3, h4, h6 hf⟩

end SmartMeter
